import Mathlib

/-!
Verification of the job-dispatch and notification server (z-image-turbo-app).

This development shallowly embeds the core of the repository:

* `job_system/jobs/text_to_image_job.py` — job-id derivation
  (`json.dumps(params, sort_keys=True)` hashed with SHA-256);
* `job_system/registry.py` — the `JobRegistry` job table, deduplicating
  `create_job`, `cancel_job`, and the executor (`_execute_job`,
  `_update_job_status`);
* `ws_manager/manager.py` — the `WebSocketManager` connection and
  subscription indexes, `connect`/`disconnect`/`subscribe` and
  `broadcast_to_job`;
* `ws_manager/router.py` — the `get_client_jobs` handler's re-subscription
  behaviour.

Python dicts are embedded as association lists (first binding of a key is
the authoritative one, insertion order preserved, as in Python), Python
sets as lists of distinct interest only up to membership, and machine-level
effects (clock reads, cache I/O, transport sends) as explicit oracles passed
to the embedded operations.
-/

namespace ZImage

/-! ## Association-list helpers (Python `dict` semantics) -/

/-- `d[k] = v` on a Python dict: replace the value at the first occurrence of
the key, keeping its position; append the binding if the key is absent. -/
def alistSet {α β : Type} [BEq α] (k : α) (v : β) : List (α × β) → List (α × β)
  | [] => [(k, v)]
  | (k', v') :: rest =>
    if k' == k then (k, v) :: rest else (k', v') :: alistSet k v rest

/-- `del d[k]` on a Python dict: drop the first binding of the key. -/
def alistErase {α β : Type} [BEq α] (k : α) : List (α × β) → List (α × β)
  | [] => []
  | (k', v') :: rest =>
    if k' == k then rest else (k', v') :: alistErase k rest

/-- `d.get(k, default)`. -/
def alistGetD {α β : Type} [BEq α] (k : α) (l : List (α × β)) (dflt : β) : β :=
  match l.lookup k with
  | some v => v
  | none => dflt

/-- Python set: add an element if it is not already present. -/
def setAdd {α : Type} [BEq α] (x : α) (s : List α) : List α :=
  if s.contains x then s else s ++ [x]

/-- Python set: `discard`/`remove` an element. -/
def setRemove {α : Type} [BEq α] (x : α) (s : List α) : List α :=
  s.filter (fun y => ¬ (y == x))

/-! ## Canonical parameter serialization and job ids

`TextToImageJob.generate_job_id` (job_system/jobs/text_to_image_job.py):

    param_str = json.dumps(params, sort_keys=True)
    return hashlib.sha256(param_str.encode("utf-8")).hexdigest()

`json.dumps` is called with its defaults apart from `sort_keys=True`:
`ensure_ascii=True` and separators `(", ", ": ")` — a space follows every
item comma and every key colon. -/

/-- A Python value serializable by `json.dumps` (floats excluded: every
parameter mapping exercised by the specification uses ints and strings). -/
inductive PyVal : Type where
  | null : PyVal
  | bool : Bool → PyVal
  | int : Int → PyVal
  | str : String → PyVal
  | arr : List PyVal → PyVal
  | obj : List (String × PyVal) → PyVal

/-- Lowercase hexadecimal digit. -/
def hexDigit (n : Nat) : Char :=
  if n < 10 then Char.ofNat (48 + n) else Char.ofNat (87 + n)

/-- Four-digit lowercase hex, used by `\uXXXX` escapes. -/
def hex4 (n : Nat) : String :=
  String.mk [hexDigit (n / 4096 % 16), hexDigit (n / 256 % 16),
             hexDigit (n / 16 % 16), hexDigit (n % 16)]

/-- `json.dumps` escaping of one character under `ensure_ascii=True`. -/
def jsonEscapeChar (c : Char) : String :=
  let n := c.toNat
  if c = '"' then "\\\""
  else if c = '\\' then "\\\\"
  else if c = '\n' then "\\n"
  else if c = '\r' then "\\r"
  else if c = '\t' then "\\t"
  else if n = 8 then "\\b"
  else if n = 12 then "\\f"
  else if n < 32 then "\\u" ++ hex4 n
  else if n < 127 then String.mk [c]
  else if n < 65536 then "\\u" ++ hex4 n
  else
    let m := n - 65536
    "\\u" ++ hex4 (55296 + m / 1024) ++ "\\u" ++ hex4 (56320 + m % 1024)

/-- `json.dumps` rendering of a string literal. -/
def jsonString (s : String) : String :=
  "\"" ++ String.join (s.data.map jsonEscapeChar) ++ "\""

/-- Python `str` `<`: code-point lexicographic comparison. -/
def charsLt : List Char → List Char → Bool
  | [], [] => false
  | [], _ :: _ => true
  | _ :: _, [] => false
  | c :: cs, d :: ds =>
    if c.toNat < d.toNat then true
    else if d.toNat < c.toNat then false
    else charsLt cs ds

/-- Python `str` `<=` (total order used by `sorted`). -/
def pyStrLe (a b : String) : Bool := ! charsLt b.data a.data

/-- Order on rendered object members: by raw key. -/
def strKeyLe (a b : String × String) : Bool := pyStrLe a.1 b.1

/-- Insert a rendered member after all members with keys `≤` its own:
together with `sortPairs` this is a stable sort by key, the order
`sorted(...)`/`sort_keys=True` produces. -/
def insortPair (p : String × String) :
    List (String × String) → List (String × String)
  | [] => [p]
  | q :: rest => if strKeyLe q p then q :: insortPair p rest else p :: q :: rest

/-- Stable sort of rendered object members by raw key (Python `sorted`). -/
def sortPairs (l : List (String × String)) : List (String × String) :=
  l.foldl (fun acc p => insortPair p acc) []

mutual

/-- `json.dumps(v, sort_keys=True)` with the default separators
`(", ", ": ")`: object keys are emitted in Python sorted (code-point) order
and a space follows each comma and colon. Each object's members are
rendered and then ordered by key — the same output Python produces by
sorting the keys first. -/
def pyJsonDumps : PyVal → String
  | .null => "null"
  | .bool true => "true"
  | .bool false => "false"
  | .int n => toString n
  | .str s => jsonString s
  | .arr l => "[" ++ String.intercalate ", " (pyJsonDumpsList l) ++ "]"
  | .obj l =>
    let rendered := sortPairs (pyJsonDumpsPairs l)
    "\x7b" ++ String.intercalate ", "
      (rendered.map (fun kv => jsonString kv.1 ++ ": " ++ kv.2)) ++ "\x7d"

/-- Render each array element. -/
def pyJsonDumpsList : List PyVal → List String
  | [] => []
  | v :: rest => pyJsonDumps v :: pyJsonDumpsList rest

/-- Render each object member to `(raw key, rendered value)`. -/
def pyJsonDumpsPairs : List (String × PyVal) → List (String × String)
  | [] => []
  | (k, v) :: rest => (k, pyJsonDumps v) :: pyJsonDumpsPairs rest

end

/-! ### SHA-256 (FIPS 180-4), on byte lists, arithmetic mod 2^32 -/

/-- Right rotation of a 32-bit word. -/
def rotr32 (n x : Nat) : Nat :=
  ((x >>> n) ||| (x <<< (32 - n))) % 4294967296

/-- SHA-256 round constants (FIPS 180-4 §4.2.2, in decimal). -/
def sha256K : Array Nat := #[
  1116352408, 1899447441, 3049323471, 3921009573, 961987163, 1508970993,
  2453635748, 2870763221, 3624381080, 310598401, 607225278, 1426881987,
  1925078388, 2162078206, 2614888103, 3248222580, 3835390401, 4022224774,
  264347078, 604807628, 770255983, 1249150122, 1555081692, 1996064986,
  2554220882, 2821834349, 2952996808, 3210313671, 3336571891, 3584528711,
  113926993, 338241895, 666307205, 773529912, 1294757372, 1396182291,
  1695183700, 1986661051, 2177026350, 2456956037, 2730485921, 2820302411,
  3259730800, 3345764771, 3516065817, 3600352804, 4094571909, 275423344,
  430227734, 506948616, 659060556, 883997877, 958139571, 1322822218,
  1537002063, 1747873779, 1955562222, 2024104815, 2227730452, 2361852424,
  2428436474, 2756734187, 3204031479, 3329325298]

/-- Initial hash value (FIPS 180-4 §5.3.3, in decimal). -/
def sha256H0 : Array Nat := #[
  1779033703, 3144134277, 1013904242, 2773480762,
  1359893119, 2600822924, 528734635, 1541459225]

/-- Big-endian bytes of a value, fixed width. -/
def natToBytesBE (width n : Nat) : List Nat :=
  (List.range width).map (fun i => n >>> (8 * (width - 1 - i)) % 256)

/-- SHA-256 padding: append `0x80`, zeros to 56 mod 64, then the 8-byte
big-endian bit length. -/
def sha256Pad (msg : List Nat) : List Nat :=
  let zeros := (119 - msg.length % 64) % 64
  msg ++ [0x80] ++ List.replicate zeros 0 ++ natToBytesBE 8 (msg.length * 8)

/-- Split into 64-byte blocks, with enough fuel to consume the input
(the padded input's length is a multiple of 64). -/
def chunks64Fuel : Nat → List Nat → List (List Nat)
  | _, [] => []
  | 0, _ => []
  | fuel + 1, l => l.take 64 :: chunks64Fuel fuel (l.drop 64)

/-- Split into 64-byte blocks. -/
def chunks64 (l : List Nat) : List (List Nat) :=
  chunks64Fuel l.length l

/-- The sixteen big-endian message words of one block. -/
def blockWords (block : List Nat) : Array Nat :=
  ((List.range 16).map (fun i =>
    ((block.getD (4 * i) 0) <<< 24) + ((block.getD (4 * i + 1) 0) <<< 16) +
    ((block.getD (4 * i + 2) 0) <<< 8) + block.getD (4 * i + 3) 0)).toArray

/-- Message-schedule extension to 64 words. -/
def sha256Schedule (w0 : Array Nat) : Array Nat :=
  (List.range 48).foldl (fun w i =>
    let j := i + 16
    let x15 := w.getD (j - 15) 0
    let x2 := w.getD (j - 2) 0
    let s0 := rotr32 7 x15 ^^^ rotr32 18 x15 ^^^ (x15 >>> 3)
    let s1 := rotr32 17 x2 ^^^ rotr32 19 x2 ^^^ (x2 >>> 10)
    w.push ((w.getD (j - 16) 0 + s0 + w.getD (j - 7) 0 + s1) % 4294967296))
    w0

/-- One compression round. -/
def sha256Round (w : Array Nat) (st : Array Nat) (i : Nat) : Array Nat :=
  let a := st.getD 0 0; let b := st.getD 1 0; let c := st.getD 2 0
  let d := st.getD 3 0; let e := st.getD 4 0; let f := st.getD 5 0
  let g := st.getD 6 0; let h := st.getD 7 0
  let s1 := rotr32 6 e ^^^ rotr32 11 e ^^^ rotr32 25 e
  let ch := (e &&& f) ^^^ ((4294967295 - e) &&& g)
  let t1 := (h + s1 + ch + sha256K.getD i 0 + w.getD i 0) % 4294967296
  let s0 := rotr32 2 a ^^^ rotr32 13 a ^^^ rotr32 22 a
  let maj := (a &&& b) ^^^ (a &&& c) ^^^ (b &&& c)
  let t2 := (s0 + maj) % 4294967296
  #[(t1 + t2) % 4294967296, a, b, c, (d + t1) % 4294967296, e, f, g]

/-- Compress one block into the running hash. -/
def sha256Compress (h : Array Nat) (block : List Nat) : Array Nat :=
  let w := sha256Schedule (blockWords block)
  let st := (List.range 64).foldl (sha256Round w) h
  (List.range 8).map (fun i => (h.getD i 0 + st.getD i 0) % 4294967296)
    |>.toArray

/-- SHA-256 digest (32 bytes) of a byte list. -/
def sha256Bytes (msg : List Nat) : List Nat :=
  let final := (chunks64 (sha256Pad msg)).foldl sha256Compress sha256H0
  (final.toList.map (natToBytesBE 4)).flatten

/-- Lowercase-hex rendering of a byte list. -/
def bytesToHex (l : List Nat) : String :=
  String.join (l.map (fun b => String.mk [hexDigit (b / 16), hexDigit (b % 16)]))

/-- UTF-8 encoding of one character. -/
def utf8Char (c : Char) : List Nat :=
  let n := c.toNat
  if n < 128 then [n]
  else if n < 2048 then [192 + n / 64, 128 + n % 64]
  else if n < 65536 then [224 + n / 4096, 128 + n / 64 % 64, 128 + n % 64]
  else [240 + n / 262144, 128 + n / 4096 % 64, 128 + n / 64 % 64, 128 + n % 64]

/-- UTF-8 bytes of a string (`str.encode("utf-8")`). -/
def utf8Bytes (s : String) : List Nat :=
  (s.data.map utf8Char).flatten

/-- `hashlib.sha256(s.encode("utf-8")).hexdigest()`. -/
def sha256Hex (s : String) : String :=
  bytesToHex (sha256Bytes (utf8Bytes s))

/-- `TextToImageJob.generate_job_id(params)`: SHA-256 lowercase-hex digest of
`json.dumps(params, sort_keys=True)`. -/
def generate_job_id (params : List (String × PyVal)) : String :=
  sha256Hex (pyJsonDumps (.obj params))

mutual

/-- Modelled from the spec (§6 Canonical parameter serialization): the
serialization the claim attributes to the code — a recursive textual
encoding with object keys in code-point sorted order and **no
insignificant whitespace**, i.e. separators `(",", ":")`. Kept side by
side with `pyJsonDumps` for comparison. -/
def specCanonical : PyVal → String
  | .null => "null"
  | .bool true => "true"
  | .bool false => "false"
  | .int n => toString n
  | .str s => jsonString s
  | .arr l => "[" ++ String.intercalate "," (specCanonicalList l) ++ "]"
  | .obj l =>
    let rendered := sortPairs (specCanonicalPairs l)
    "\x7b" ++ String.intercalate ","
      (rendered.map (fun kv => jsonString kv.1 ++ ":" ++ kv.2)) ++ "\x7d"

/-- Spec-modelled rendering of each array element. -/
def specCanonicalList : List PyVal → List String
  | [] => []
  | v :: rest => specCanonical v :: specCanonicalList rest

/-- Spec-modelled rendering of each object member. -/
def specCanonicalPairs : List (String × PyVal) → List (String × String)
  | [] => []
  | (k, v) :: rest => (k, specCanonical v) :: specCanonicalPairs rest

end

/-! ## Job registry (job_system/registry.py)

`JobRegistry` keeps `_jobs : Dict[str, dict]`, `_cancelled_jobs : Set[str]`
and `_client_jobs : Dict[str, Set[str]]`. Jobs are dicts with string
statuses (the `JobStatus` enum `.value`s); `_update_job_status` can write
arbitrary handler-chosen strings, so the embedding stores `status` as a
`String`. Clock reads (`time.time()`) are an oracle `clock : Nat → Nat`
consumed one tick per call; the cache file system and the job class's
`should_use_cache`/`deserialize_result` are a `CacheEnv` oracle. -/

namespace JobStatus

/-- `JobStatus.PENDING.value`. -/
def pending : String := "pending"

/-- `JobStatus.PROCESSING.value`. -/
def processing : String := "processing"

/-- `JobStatus.COMPLETED.value`. -/
def completed : String := "completed"

/-- `JobStatus.FAILED.value`. -/
def failed : String := "failed"

/-- `JobStatus.CANCELLED.value`. -/
def cancelled : String := "cancelled"

end JobStatus

/-- The `final_statuses` test of `_update_job_status`. -/
def isTerminalStatus (st : String) : Bool :=
  st == JobStatus.completed || st == JobStatus.failed || st == JobStatus.cancelled

/-- A `cls._jobs[job_id]` entry. The cache-hit path builds a dict without
`error`/`client_id` keys and the fresh path stores `"error": None`; all
readers use `.get`, which does not distinguish a missing key from `None`,
so both are embedded as `none`. -/
structure JobEntry where
  id : String
  task_type : String
  params : List (String × PyVal)
  status : String
  result : Option PyVal
  error : Option String
  created_at : Nat
  completed_at : Option Nat
  client_id : Option String

/-- The mutable class-level state of `JobRegistry`. -/
structure RegistryState where
  jobs : List (String × JobEntry)
  cancelled_jobs : List String
  client_jobs : List (String × List String)

/-- A message handed to the broadcast callback by `_broadcast_status`:
`{"type": "job_status", "job_id": …, "status": …}` plus `result`/`error`
when not `None`. -/
structure StatusMsg where
  job_id : String
  status : String
  result : Option PyVal
  error : Option String

/-- Python truthiness of an optional string (`if client_id:` …). -/
def truthyStr : Option String → Bool
  | some s => s ≠ ""
  | none => false

/-- Oracles for the cache interaction of `create_job`: the job instance's
cache policy, `cache_exists`, `read_cache` (`none` models a vanished file)
and `deserialize_result` (`none` models a raised exception, caught by
`create_job`). -/
structure CacheEnv where
  should_use_cache : Bool
  cache_exists : Bool
  read_cache : Option (List Nat)
  deserialize_result : List Nat → Option PyVal

/-- Everything observable about one `create_job` call: the state after the
call, its return value, whether `asyncio.create_task(cls._execute_job(…))`
ran, the broadcasts it emitted (none, on every path), and the clock
position after the call. -/
structure CreateOutcome where
  state : RegistryState
  ret : Option JobEntry
  scheduled : Bool
  broadcasts : List StatusMsg
  nextTick : Nat

/-- The cache probe of `create_job` (registry.py lines 161-186): the
cached result is used only when caching is on, `cache_exists` holds, the
read blob is truthy (non-`None`, non-empty) and deserialization does not
raise; every other combination falls through to a fresh entry. -/
def cache_probe (env : CacheEnv) : Option PyVal :=
  if env.should_use_cache && env.cache_exists then
    match env.read_cache with
    | some d => if d.isEmpty then none else env.deserialize_result d
    | none => none
  else none

/-- The fully formed `completed` entry the cache-hit path inserts
(registry.py lines 174-182): `created_at` and `completed_at` come from two
successive `time.time()` reads, and the dict carries no `error` and no
`client_id` key. -/
def cache_hit_entry (clock : Nat → Nat) (tick : Nat)
    (task_type job_id : String) (params : List (String × PyVal))
    (result : PyVal) : JobEntry :=
  { id := job_id, task_type := task_type, params := params,
    status := JobStatus.completed, result := some result,
    error := none, created_at := clock tick,
    completed_at := some (clock (tick + 1)), client_id := none }

/-- The observable outcome of the cache-hit path of `create_job`: the
completed entry inserted at the derived id, returned as-is, with no
execution scheduled, no broadcast, and two clock reads consumed. -/
def cache_hit_outcome (clock : Nat → Nat) (tick : Nat)
    (task_type job_id : String) (params : List (String × PyVal))
    (r : PyVal) (s : RegistryState) : CreateOutcome :=
  let entry := cache_hit_entry clock tick task_type job_id params r
  { state := { s with jobs := alistSet job_id entry s.jobs },
    ret := some entry, scheduled := false, broadcasts := [],
    nextTick := tick + 2 }

/-- The fall-through part of `create_job` (registry.py lines 161-211):
file-cache probe, then fresh `pending` entry plus ownership tracking and
`asyncio.create_task`. -/
def create_job_fresh (env : CacheEnv) (clock : Nat → Nat) (tick : Nat)
    (task_type job_id : String) (params : List (String × PyVal))
    (client_id : Option String) (s : RegistryState) : CreateOutcome :=
  match cache_probe env with
  | some result =>
    let entry := cache_hit_entry clock tick task_type job_id params result
    { state := { s with jobs := alistSet job_id entry s.jobs },
      ret := some entry, scheduled := false, broadcasts := [],
      nextTick := tick + 2 }
  | none =>
    let entry : JobEntry :=
      { id := job_id, task_type := task_type, params := params,
        status := JobStatus.pending, result := none, error := none,
        created_at := clock tick, completed_at := none,
        client_id := client_id }
    let jobs' := alistSet job_id entry s.jobs
    let client_jobs' :=
      match client_id with
      | some cid =>
        if cid ≠ "" then
          alistSet cid (setAdd job_id (alistGetD cid s.client_jobs [])) s.client_jobs
        else s.client_jobs
      | none => s.client_jobs
    { state := { jobs := jobs', cancelled_jobs := s.cancelled_jobs,
                 client_jobs := client_jobs' },
      ret := jobs'.lookup job_id, scheduled := true, broadcasts := [],
      nextTick := tick + 1 }

/-- `JobRegistry.create_job` (registry.py lines 118-211). The job id is
derived from the parameters by the registered job class (`genId`);
`registered` is the `task_type in cls._job_types` test. -/
def create_job (registered : Bool) (genId : List (String × PyVal) → String)
    (env : CacheEnv) (clock : Nat → Nat) (tick : Nat)
    (task_type : String) (params : List (String × PyVal))
    (client_id : Option String) (s : RegistryState) : CreateOutcome :=
  if !registered then
    { state := s, ret := none, scheduled := false, broadcasts := [],
      nextTick := tick }
  else
    let job_id := genId params
    match s.jobs.lookup job_id with
    | some existing =>
      if existing.status = JobStatus.pending ∨
         existing.status = JobStatus.processing then
        { state := s, ret := some existing, scheduled := false,
          broadcasts := [], nextTick := tick }
      else if existing.status = JobStatus.completed then
        { state := s, ret := some existing, scheduled := false,
          broadcasts := [], nextTick := tick }
      else
        create_job_fresh env clock tick task_type job_id params client_id s
    | none =>
      create_job_fresh env clock tick task_type job_id params client_id s

/-- `JobRegistry.cancel_job` (registry.py lines 94-110). Returns the bool
result, the state after the call, and the broadcasts the call emits —
the function body contains no `_broadcast_status` call, so that list is
empty on every path. -/
def cancel_job (job_id : String) (s : RegistryState) :
    Bool × RegistryState × List StatusMsg :=
  match s.jobs.lookup job_id with
  | some e =>
    if e.status = JobStatus.pending ∨ e.status = JobStatus.processing then
      let s₁ := { s with cancelled_jobs := setAdd job_id s.cancelled_jobs }
      let s₂ :=
        if e.status = JobStatus.pending then
          { s₁ with jobs := alistSet job_id { e with status := JobStatus.cancelled } s₁.jobs }
        else s₁
      (true, s₂, [])
    else (false, s, [])
  | none => (false, s, [])

/-- The prefix of `JobRegistry._execute_job` up to the `await job.execute()`
suspension point (registry.py lines 222-235): after acquiring the
semaphore it sets the status to `processing` — with no cancellation
check — and broadcasts `processing`. -/
def execute_job_start (job_id : String) (s : RegistryState) :
    RegistryState × List StatusMsg :=
  let s' :=
    match s.jobs.lookup job_id with
    | some e => { s with jobs := alistSet job_id { e with status := JobStatus.processing } s.jobs }
    | none => s
  (s', [{ job_id := job_id, status := JobStatus.processing, result := none, error := none }])

/-- The `except` branch of `_execute_job` (registry.py lines 268-291): the
terminal status is `cancelled` if the id is in the cancellation set,
`failed` otherwise; `error` and `completed_at` are recorded and the
status is broadcast. -/
def execute_job_error (job_id error_msg : String) (clock : Nat → Nat)
    (tick : Nat) (s : RegistryState) : RegistryState × List StatusMsg :=
  let st := if s.cancelled_jobs.contains job_id then JobStatus.cancelled
            else JobStatus.failed
  let s' :=
    match s.jobs.lookup job_id with
    | some e =>
      let e' := { e with status := st, error := some error_msg,
                         completed_at := some (clock tick) }
      { s with jobs := alistSet job_id e' s.jobs }
    | none => s
  (s', [{ job_id := job_id, status := st, result := none, error := some error_msg }])

/-- The rest of `_execute_job` after `await job.execute()` returns or
raises (registry.py lines 239-296): a successful result is demoted to an
error when the cancellation set holds the id; the `finally` block clears
the id from the cancellation set. -/
def execute_job_finish (job_id : String) (outcome : Except String PyVal)
    (clock : Nat → Nat) (tick : Nat) (s : RegistryState) :
    RegistryState × List StatusMsg :=
  let r :=
    match outcome with
    | .ok result =>
      if s.cancelled_jobs.contains job_id then
        execute_job_error job_id "Job cancelled by user" clock tick s
      else
        let s' :=
          match s.jobs.lookup job_id with
          | some e =>
            let e' := { e with status := JobStatus.completed,
                               result := some result,
                               completed_at := some (clock tick) }
            { s with jobs := alistSet job_id e' s.jobs }
          | none => s
        (s', [{ job_id := job_id, status := JobStatus.completed,
                result := some result, error := none }])
    | .error msg => execute_job_error job_id msg clock tick s
  ({ r.1 with cancelled_jobs := setRemove job_id r.1.cancelled_jobs }, r.2)

/-- `JobRegistry._update_job_status` (registry.py lines 298-317): the
status is written only when the current one is non-terminal, but the
broadcast is emitted unconditionally, carrying `extra_data` as `result`. -/
def update_job_status (job_id status : String) (extra : Option PyVal)
    (s : RegistryState) : RegistryState × List StatusMsg :=
  let s' :=
    match s.jobs.lookup job_id with
    | some e =>
      if isTerminalStatus e.status then s
      else { s with jobs := alistSet job_id { e with status := status } s.jobs }
    | none => s
  (s', [{ job_id := job_id, status := status, result := extra, error := none }])

/-- `JobRegistry.get_client_jobs` (registry.py lines 360-373). -/
def get_client_jobs (client_id : String) (s : RegistryState) : List JobEntry :=
  (alistGetD client_id s.client_jobs []).filterMap (fun j => s.jobs.lookup j)

/-- One atomic state transition of a registered job after creation: the
cancellation path, the two halves of the executor, or a handler-driven
status update. -/
inductive Step : Type where
  | cancel (job_id : String)
  | execStart (job_id : String)
  | execFinish (job_id : String) (outcome : Except String PyVal) (tick : Nat)
  | updateStatus (job_id : String) (status : String) (extra : Option PyVal)

/-- Apply one `Step`, returning the new state and the broadcasts emitted. -/
def applyStep (clock : Nat → Nat) : Step → RegistryState → RegistryState × List StatusMsg
  | .cancel j, s => let r := cancel_job j s; (r.2.1, r.2.2)
  | .execStart j, s => execute_job_start j s
  | .execFinish j o t, s => execute_job_finish j o clock t s
  | .updateStatus j st e, s => update_job_status j st e s

/-! ## WebSocket manager (ws_manager/manager.py)

Connections are opaque transport handles, embedded as numeric ids (the
pseudo client id `f"_ws_{id(websocket)}"` uses the same number). An
outbound message is a flat string-to-string mapping — enough for
`job_status` frames — and transport failures of `websocket.send_text` are
an oracle `sendFails : ConnId → Bool`. -/

/-- A transport handle (`WebSocket` object identity). -/
abbrev ConnId := Nat

/-- An outbound frame, as a Python dict. -/
abbrev Msg := List (String × String)

/-- The five indexes of `WebSocketManager`. -/
structure WSState where
  active_connections : List ConnId
  client_connections : List (String × ConnId)
  connection_client_ids : List (ConnId × String)
  job_subscriptions : List (String × List (String × Option String))
  client_subscriptions : List (String × List String)

/-- `WebSocketManager.connect` (manager.py lines 63-99): accept, supplant
any prior connection bound to the same client id (without touching
subscriptions), install the new binding, and make sure the client has a
`client_subscriptions` entry. -/
def connect (ws : ConnId) (client_id : Option String) (s : WSState) : WSState :=
  if truthyStr client_id then
    let cid := client_id.getD ""
    let active₀ := setAdd ws s.active_connections
    let evicted :=
      match s.client_connections.lookup cid with
      | some old_ws =>
        if active₀.contains old_ws then
          (setRemove old_ws active₀, alistErase old_ws s.connection_client_ids)
        else (active₀, s.connection_client_ids)
      | none => (active₀, s.connection_client_ids)
    let cs :=
      if (s.client_subscriptions.lookup cid).isSome then s.client_subscriptions
      else s.client_subscriptions ++ [(cid, [])]
    { active_connections := evicted.1,
      client_connections := alistSet cid ws s.client_connections,
      connection_client_ids := alistSet ws cid evicted.2,
      job_subscriptions := s.job_subscriptions,
      client_subscriptions := cs }
  else { s with active_connections := setAdd ws s.active_connections }

/-- `WebSocketManager.disconnect` (manager.py lines 101-117): drop the
connection from the active set and the two identity maps, leaving both
subscription indexes untouched. -/
def disconnect (ws : ConnId) (s : WSState) : WSState :=
  let active' := setRemove ws s.active_connections
  match s.connection_client_ids.lookup ws with
  | some cid =>
    if cid = "" then { s with active_connections := active' }
    else
      let cc :=
        if s.client_connections.lookup cid = some ws then
          alistErase cid s.client_connections
        else s.client_connections
      { active_connections := active',
        client_connections := cc,
        connection_client_ids := alistErase ws s.connection_client_ids,
        job_subscriptions := s.job_subscriptions,
        client_subscriptions := s.client_subscriptions }
  | none => { s with active_connections := active' }

/-- The anonymous branch of `subscribe` (manager.py lines 131-143): a
synthetic `_ws_<id>` client identity is minted and registered. -/
def subscribe_anon (job_id : String) (ws : ConnId) (request_id : Option String)
    (s : WSState) : WSState :=
  let pid := "_ws_" ++ toString ws
  { s with
    job_subscriptions :=
      alistSet job_id (alistSet pid request_id (alistGetD job_id s.job_subscriptions []))
        s.job_subscriptions,
    connection_client_ids := alistSet ws pid s.connection_client_ids,
    client_connections := alistSet pid ws s.client_connections,
    client_subscriptions :=
      alistSet pid (setAdd job_id (alistGetD pid s.client_subscriptions []))
        s.client_subscriptions }

/-- `WebSocketManager.subscribe` (manager.py lines 119-143): store
`job_subscriptions[job_id][client_id] = request_id` — an unconditional
overwrite — and record the job in `client_subscriptions`. -/
def subscribe (job_id : String) (ws : ConnId) (request_id : Option String)
    (s : WSState) : WSState :=
  match s.connection_client_ids.lookup ws with
  | some cid =>
    if cid = "" then subscribe_anon job_id ws request_id s
    else
      let s₁ := { s with
        job_subscriptions :=
          alistSet job_id (alistSet cid request_id (alistGetD job_id s.job_subscriptions []))
            s.job_subscriptions }
      match s₁.client_subscriptions.lookup cid with
      | some js =>
        { s₁ with client_subscriptions := alistSet cid (setAdd job_id js) s₁.client_subscriptions }
      | none => s₁
  | none => subscribe_anon job_id ws request_id s

/-- The dead-connection cleanup at the end of `broadcast_to_job`
(manager.py lines 201-208): evict the connection, keep the subscription. -/
def evictDead (s : WSState) (cid : String) : WSState :=
  match s.client_connections.lookup cid with
  | some ws =>
    { s with active_connections := setRemove ws s.active_connections,
             client_connections := alistErase cid s.client_connections,
             connection_client_ids := alistErase ws s.connection_client_ids }
  | none => s

/-- The per-subscriber body of the `broadcast_to_job` loop (manager.py
lines 177-199), folded over `(sends so far, dead clients so far)`:
disconnected subscribers are skipped; a subscriber whose stored
`request_id` is truthy gets a copy of the message with `request_id`
injected; a send failure records the client id for eviction. -/
def broadcastStep (msg : Msg) (sendFails : ConnId → Bool) (s : WSState)
    (acc : List (ConnId × Msg) × List String) (p : String × Option String) :
    List (ConnId × Msg) × List String :=
  match s.client_connections.lookup p.1 with
  | none => acc
  | some ws =>
    if sendFails ws then (acc.1, acc.2 ++ [p.1])
    else
      let m := if truthyStr p.2 then alistSet "request_id" (p.2.getD "") msg else msg
      (acc.1 ++ [(ws, m)], acc.2)

/-- What one loop iteration of `broadcast_to_job` sends for a subscriber:
nothing when the client has no connection or its send fails; otherwise the
shared message, or a per-subscriber copy with `request_id` injected when
the stored token is truthy. -/
def sendFor (msg : Msg) (sendFails : ConnId → Bool) (s : WSState)
    (p : String × Option String) : Option (ConnId × Msg) :=
  match s.client_connections.lookup p.1 with
  | none => none
  | some ws =>
    if sendFails ws then none
    else some (ws, if truthyStr p.2 then alistSet "request_id" (p.2.getD "") msg
                   else msg)

/-- Which client id one loop iteration of `broadcast_to_job` adds to
`dead_clients`. -/
def deadFor (sendFails : ConnId → Bool) (s : WSState)
    (p : String × Option String) : Option String :=
  match s.client_connections.lookup p.1 with
  | none => none
  | some ws => if sendFails ws then some p.1 else none

/-- `WebSocketManager.broadcast_to_job` (manager.py lines 167-208):
returns the state after the call and the list of `(connection, frame)`
deliveries it performed. -/
def broadcast_to_job (job_id : String) (msg : Msg) (sendFails : ConnId → Bool)
    (s : WSState) : WSState × List (ConnId × Msg) :=
  match s.job_subscriptions.lookup job_id with
  | none => (s, [])
  | some subs =>
    let r := subs.foldl (broadcastStep msg sendFails s) ([], [])
    (r.2.foldl evictDead s, r.1)

/-- The re-subscription side effect of the router's `get_client_jobs`
handler (ws_manager/router.py lines 228-243): every pending or processing
job of the client is re-subscribed **without a request id**. -/
def resubscribe_client_jobs (reg : RegistryState) (client_id : String)
    (ws : ConnId) (s : WSState) : WSState :=
  (get_client_jobs client_id reg).foldl
    (fun s' job =>
      if job.status = JobStatus.pending ∨ job.status = JobStatus.processing then
        subscribe job.id ws none s'
      else s') s

/-! ## Concrete fixtures used by witnesses and counterexamples -/

/-- A clock that advances by one per read. -/
def exClock : Nat → Nat := fun n => n

/-- Transport oracle: every send succeeds. -/
def noFails : ConnId → Bool := fun _ => false

/-- A job-class id function for registry fixtures. -/
def exGenId : List (String × PyVal) → String := fun _ => "J"

/-- Cache oracle: caching enabled but no cache file on disk. -/
def envNoCache : CacheEnv :=
  { should_use_cache := true, cache_exists := false, read_cache := none,
    deserialize_result := fun _ => none }

/-- Cache oracle: a readable blob (the bytes of `"{}"`) that deserializes
to the empty mapping. -/
def envCacheHit : CacheEnv :=
  { should_use_cache := true, cache_exists := true, read_cache := some [123, 125],
    deserialize_result := fun _ => some (.obj []) }

/-- A freshly created `pending` entry for job `"J"` owned by `"c1"`. -/
def exEntryPending : JobEntry :=
  { id := "J", task_type := "text_to_image", params := [],
    status := JobStatus.pending, result := none, error := none,
    created_at := 0, completed_at := none, client_id := some "c1" }

/-- A registry holding only the pending job `"J"`. -/
def exStatePending : RegistryState :=
  { jobs := [("J", exEntryPending)], cancelled_jobs := [],
    client_jobs := [("c1", ["J"])] }

/-- An empty registry. -/
def exStateEmpty : RegistryState :=
  { jobs := [], cancelled_jobs := [], client_jobs := [] }

/-- The entry of job `"J"` after a cancel-while-pending. -/
def exEntryCancelled : JobEntry :=
  { exEntryPending with status := JobStatus.cancelled }

/-- The registry right after `cancel_job` hit the pending job `"J"`:
status rewritten, id recorded in the cancellation set. -/
def exStateCancelled : RegistryState :=
  { jobs := [("J", exEntryCancelled)], cancelled_jobs := ["J"],
    client_jobs := [("c1", ["J"])] }

/-- The entry of job `"J"` after a successful finish at clock tick 7. -/
def exEntryDone : JobEntry :=
  { exEntryPending with
    status := JobStatus.completed,
    result := some (PyVal.obj []),
    completed_at := some (exClock 7) }

/-- A manager state: connection `1` is bound to client `"c1"`, which is
subscribed to job `"J"` with correlation token `"r1"`. -/
def exWS : WSState :=
  { active_connections := [1], client_connections := [("c1", 1)],
    connection_client_ids := [(1, "c1")],
    job_subscriptions := [("J", [("c1", some "r1")])],
    client_subscriptions := [("c1", ["J"])] }

/-- A `job_status` frame as produced by `_broadcast_status`. -/
def exMsg : Msg := [("type", "job_status"), ("job_id", "J"), ("status", "processing")]

end ZImage

/-! ## Lemmas about the dict embedding -/

namespace ZImage

theorem lookup_alistSet_self {α β : Type} [BEq α] [LawfulBEq α]
    (k : α) (v : β) (l : List (α × β)) : (alistSet k v l).lookup k = some v := by
  induction l with
  | nil => simp [alistSet]
  | cons p rest ih =>
    by_cases h : p.1 = k
    · simp [alistSet, h]
    · have hb : (p.1 == k) = false := beq_false_of_ne h
      simp [alistSet, hb, ih, List.lookup, beq_false_of_ne (Ne.symm h)]

theorem lookup_alistSet_ne {α β : Type} [BEq α] [LawfulBEq α]
    {k k' : α} (v : β) (l : List (α × β)) (h : k' ≠ k) :
    (alistSet k v l).lookup k' = l.lookup k' := by
  induction l with
  | nil => simp [alistSet, List.lookup, beq_false_of_ne h]
  | cons p rest ih =>
    by_cases hp : p.1 = k
    · subst hp
      simp [alistSet, List.lookup, beq_false_of_ne h]
    · have hb : (p.1 == k) = false := beq_false_of_ne hp
      simp [alistSet, hb, List.lookup, ih]

theorem lookup_alistErase_ne {α β : Type} [BEq α] [LawfulBEq α]
    {k k' : α} (l : List (α × β)) (h : k' ≠ k) :
    (alistErase k l).lookup k' = l.lookup k' := by
  induction l with
  | nil => simp [alistErase]
  | cons p rest ih =>
    by_cases hp : p.1 = k
    · subst hp
      simp [alistErase, List.lookup, beq_false_of_ne h]
    · have hb : (p.1 == k) = false := beq_false_of_ne hp
      simp [alistErase, hb, List.lookup, ih]

theorem mem_of_lookup_some {α β : Type} [BEq α] [LawfulBEq α]
    {k : α} {v : β} {l : List (α × β)} (h : l.lookup k = some v) : (k, v) ∈ l := by
  induction l with
  | nil => simp [List.lookup] at h
  | cons p rest ih =>
    rw [List.lookup] at h
    by_cases hp : k = p.1
    · subst hp
      rw [beq_self_eq_true] at h
      simp only [Option.some.injEq] at h
      subst h
      exact List.mem_cons_self _ _
    · have hb : (k == p.1) = false := beq_false_of_ne hp
      rw [hb] at h
      exact List.mem_cons_of_mem _ (ih h)

theorem lookup_alistErase_self {α β : Type} [BEq α] [LawfulBEq α]
    (k : α) (l : List (α × β)) (h : (l.map Prod.fst).Nodup) :
    (alistErase k l).lookup k = none := by
  induction l with
  | nil => simp [alistErase]
  | cons p rest ih =>
    simp only [List.map_cons, List.nodup_cons] at h
    by_cases hp : p.1 = k
    · subst hp
      simp only [alistErase, beq_self_eq_true, if_true]
      cases hl : rest.lookup p.1 with
      | none => rfl
      | some v =>
        exact absurd (List.mem_map_of_mem Prod.fst (mem_of_lookup_some hl)) h.1
    · have hb : (p.1 == k) = false := beq_false_of_ne hp
      have hb' : (k == p.1) = false := beq_false_of_ne (Ne.symm hp)
      simp [alistErase, hb, List.lookup, hb', ih h.2]

theorem lookup_alistErase_none {α β : Type} [BEq α] [LawfulBEq α]
    (k k' : α) (l : List (α × β)) (h : l.lookup k' = none) :
    (alistErase k l).lookup k' = none := by
  induction l with
  | nil => simp [alistErase]
  | cons p rest ih =>
    rw [List.lookup] at h
    by_cases hp : k' = p.1
    · subst hp
      rw [beq_self_eq_true] at h
      cases h
    · have hb : (k' == p.1) = false := beq_false_of_ne hp
      rw [hb] at h
      by_cases hk : p.1 = k
      · subst hk
        simp only [alistErase, beq_self_eq_true, if_true]
        exact h
      · have hbk : (p.1 == k) = false := beq_false_of_ne hk
        simp only [alistErase, hbk, if_false, List.lookup, hb]
        exact ih h

theorem alistErase_sublist {α β : Type} [BEq α]
    (k : α) (l : List (α × β)) : (alistErase k l).Sublist l := by
  induction l with
  | nil => simp [alistErase]
  | cons p rest ih =>
    rw [alistErase]
    by_cases hb : (p.1 == k) = true
    · rw [if_pos hb]
      exact List.sublist_cons_self p rest
    · rw [if_neg hb]
      exact ih.cons₂ p

theorem nodup_keys_alistErase {α β : Type} [BEq α] [LawfulBEq α]
    (k : α) (l : List (α × β)) (h : (l.map Prod.fst).Nodup) :
    ((alistErase k l).map Prod.fst).Nodup :=
  ((alistErase_sublist k l).map Prod.fst).nodup h

theorem contains_eq_false_iff {α : Type} [BEq α] [LawfulBEq α]
    (l : List α) (x : α) : l.contains x = false ↔ ¬ x ∈ l := by
  induction l with
  | nil => simp
  | cons y rest ih =>
    rw [List.contains_cons, Bool.or_eq_false_iff]
    constructor
    · rintro ⟨h1, h2⟩ hmem
      rcases List.mem_cons.mp hmem with hm | hm
      · exact (beq_eq_false_iff_ne.mp h1) hm
      · exact (ih.mp h2) hm
    · intro hnot
      exact ⟨beq_false_of_ne (fun hxy => hnot (hxy ▸ List.mem_cons_self _ _)),
        ih.mpr (fun hm => hnot (List.mem_cons_of_mem _ hm))⟩

theorem setRemove_contains_self {α : Type} [BEq α] [LawfulBEq α]
    (x : α) (l : List α) : (setRemove x l).contains x = false := by
  rw [contains_eq_false_iff]
  intro hmem
  have := (List.mem_filter.mp hmem).2
  simp at this

theorem contains_setRemove_mono {α : Type} [BEq α] [LawfulBEq α]
    (x y : α) (l : List α) (h : l.contains x = false) :
    (setRemove y l).contains x = false := by
  rw [contains_eq_false_iff] at h ⊢
  intro hmem
  exact h (List.mem_of_mem_filter hmem)

theorem contains_setAdd_of_mem {α : Type} [BEq α] [LawfulBEq α]
    (x y : α) (l : List α) (h : x ∈ l) : (setAdd y l).contains x = true := by
  have hmem : x ∈ setAdd y l := by
    rw [setAdd]
    by_cases hc : l.contains y
    · rw [if_pos hc]; exact h
    · rw [if_neg hc]; exact List.mem_append_left _ h
  cases hc : (setAdd y l).contains x with
  | true => rfl
  | false => exact absurd hmem ((contains_eq_false_iff _ _).mp hc)

theorem lookup_append_some {α β : Type} [BEq α]
    {k : α} {v : β} (l l' : List (α × β)) (h : l.lookup k = some v) :
    (l ++ l').lookup k = some v := by
  induction l with
  | nil => cases h
  | cons p rest ih =>
    rw [List.lookup] at h
    rw [List.cons_append, List.lookup]
    cases hk : (k == p.1) with
    | true => rwa [hk] at h
    | false =>
      rw [hk] at h
      exact ih h

/-! ### The code-point order underlying `sorted` -/

theorem charsLt_asymm : ∀ a b : List Char, charsLt a b = true → charsLt b a = false := by
  intro a
  induction a with
  | nil =>
    intro b h
    cases b with
    | nil => simp [charsLt] at h
    | cons y ys => simp [charsLt]
  | cons x xs ih =>
    intro b h
    cases b with
    | nil => simp [charsLt] at h
    | cons y ys =>
      rw [charsLt] at h ⊢
      by_cases h1 : x.toNat < y.toNat
      · rw [if_pos h1] at h
        rw [if_neg (Nat.lt_asymm h1), if_pos h1]
      · rw [if_neg h1] at h
        by_cases h2 : y.toNat < x.toNat
        · rw [if_pos h2] at h
          cases h
        · rw [if_neg h2] at h
          rw [if_neg h2, if_neg h1]
          exact ih ys h

theorem charsLt_neg_trans : ∀ a b c : List Char,
    charsLt b a = false → charsLt c b = false → charsLt c a = false := by
  intro a
  induction a with
  | nil =>
    intro b c _ _
    cases c with
    | nil => rfl
    | cons z zs => rfl
  | cons x xs ih =>
    intro b c h1 h2
    cases c with
    | nil =>
      cases b with
      | nil => simp [charsLt] at h1
      | cons y ys => simp [charsLt] at h2
    | cons z zs =>
      cases b with
      | nil => simp [charsLt] at h1
      | cons y ys =>
        rw [charsLt] at h1 h2 ⊢
        by_cases hyx : y.toNat < x.toNat
        · rw [if_pos hyx] at h1
          cases h1
        · rw [if_neg hyx] at h1
          by_cases hzy : z.toNat < y.toNat
          · rw [if_pos hzy] at h2
            cases h2
          · rw [if_neg hzy] at h2
            have hzx : ¬ z.toNat < x.toNat := by omega
            rw [if_neg hzx]
            by_cases hxz : x.toNat < z.toNat
            · rw [if_pos hxz]
            · rw [if_neg hxz]
              have hxy : ¬ x.toNat < y.toNat := by omega
              have hyz : ¬ y.toNat < z.toNat := by omega
              rw [if_neg hxy] at h1
              rw [if_neg hyz] at h2
              exact ih ys zs h1 h2

theorem charsLt_conn : ∀ a b : List Char,
    charsLt a b = false → charsLt b a = false → a = b := by
  intro a
  induction a with
  | nil =>
    intro b h1 _
    cases b with
    | nil => rfl
    | cons y ys => simp [charsLt] at h1
  | cons x xs ih =>
    intro b h1 h2
    cases b with
    | nil => simp [charsLt] at h2
    | cons y ys =>
      rw [charsLt] at h1 h2
      by_cases hxy : x.toNat < y.toNat
      · rw [if_pos hxy] at h1
        cases h1
      · rw [if_neg hxy] at h1
        by_cases hyx : y.toNat < x.toNat
        · rw [if_pos hyx] at h2
          cases h2
        · rw [if_neg hyx] at h1
          rw [if_neg hxy, if_neg hyx] at h2
          have h3 : x.toNat = y.toNat := by omega
          have hx : x = y := by
            rw [← Char.ofNat_toNat x, h3, Char.ofNat_toNat]
          rw [hx, ih ys h1 h2]

theorem strKeyLe_total (p q : String × String) :
    strKeyLe p q = false → strKeyLe q p = true := by
  intro h
  rw [strKeyLe, pyStrLe] at h ⊢
  rw [Bool.not_eq_false'] at h
  rw [charsLt_asymm _ _ h]
  rfl

theorem strKeyLe_trans (p q r : String × String) :
    strKeyLe p q = true → strKeyLe q r = true → strKeyLe p r = true := by
  intro h1 h2
  rw [strKeyLe, pyStrLe, Bool.not_eq_true'] at h1 h2 ⊢
  exact charsLt_neg_trans _ _ _ h1 h2

theorem strKeyLe_antisymm_key (p q : String × String) :
    strKeyLe p q = true → strKeyLe q p = true → p.1 = q.1 := by
  intro h1 h2
  rw [strKeyLe, pyStrLe, Bool.not_eq_true'] at h1 h2
  have := charsLt_conn p.1.data q.1.data h2 h1
  cases p with
  | mk p1 p2 =>
    cases q with
    | mk q1 q2 =>
      cases p1
      cases q1
      simpa using congrArg String.mk this

/-! ### `sortPairs` is a stable sort: permutation and sortedness -/

/-- Ordering predicate on rendered members. -/
def pairLe (p q : String × String) : Prop := strKeyLe p q = true

theorem perm_insortPair (p : String × String) (l : List (String × String)) :
    (insortPair p l).Perm (p :: l) := by
  induction l with
  | nil => exact List.Perm.refl _
  | cons q rest ih =>
    rw [insortPair]
    by_cases h : strKeyLe q p = true
    · rw [if_pos h]
      exact (ih.cons q).trans (List.Perm.swap p q rest)
    · rw [if_neg h]

theorem perm_sortPairs_aux (l acc : List (String × String)) :
    (l.foldl (fun a p => insortPair p a) acc).Perm (l ++ acc) := by
  induction l generalizing acc with
  | nil => exact List.Perm.refl _
  | cons x xs ih =>
    rw [List.foldl_cons]
    refine (ih (insortPair x acc)).trans ?_
    refine (List.Perm.append_left xs (perm_insortPair x acc)).trans ?_
    exact List.perm_middle

theorem perm_sortPairs (l : List (String × String)) : (sortPairs l).Perm l := by
  have := perm_sortPairs_aux l []
  simpa [sortPairs] using this

theorem pairwise_insortPair (p : String × String) (l : List (String × String))
    (h : l.Pairwise pairLe) : (insortPair p l).Pairwise pairLe := by
  induction l with
  | nil => simp [insortPair, pairLe]
  | cons q rest ih =>
    rw [insortPair]
    rcases h with _ | ⟨hq, hrest⟩
    by_cases hqp : strKeyLe q p = true
    · rw [if_pos hqp]
      refine List.Pairwise.cons ?_ (ih hrest)
      intro b hb
      rcases List.mem_cons.mp ((perm_insortPair p rest).mem_iff.mp hb) with
        hb' | hb'
      · subst hb'
        exact hqp
      · exact hq b hb'
    · rw [if_neg hqp]
      refine List.Pairwise.cons ?_ (List.Pairwise.cons hq hrest)
      intro b hb
      have hpq : pairLe p q :=
        strKeyLe_total _ _ (Bool.of_not_eq_true hqp)
      rcases List.mem_cons.mp hb with hb' | hb'
      · subst hb'
        exact hpq
      · exact strKeyLe_trans _ _ _ hpq (hq b hb')

theorem pairwise_sortPairs_aux (l acc : List (String × String))
    (hacc : acc.Pairwise pairLe) :
    (l.foldl (fun a p => insortPair p a) acc).Pairwise pairLe := by
  induction l generalizing acc with
  | nil => exact hacc
  | cons x xs ih =>
    rw [List.foldl_cons]
    exact ih _ (pairwise_insortPair x acc hacc)

theorem pairwise_sortPairs (l : List (String × String)) :
    (sortPairs l).Pairwise pairLe := by
  rw [sortPairs]
  exact pairwise_sortPairs_aux l [] (List.Pairwise.nil)

theorem sorted_nodup_keys_perm_eq : ∀ l₁ l₂ : List (String × String),
    l₁.Perm l₂ → l₁.Pairwise pairLe → l₂.Pairwise pairLe →
    (l₁.map Prod.fst).Nodup → l₁ = l₂ := by
  intro l₁
  induction l₁ with
  | nil =>
    intro l₂ hperm _ _ _
    exact hperm.nil_eq
  | cons p xs ih =>
    intro l₂ hperm h₁ h₂ hnodup
    cases l₂ with
    | nil => exact (List.cons_ne_nil p xs hperm.eq_nil).elim
    | cons q ys =>
      rcases h₁ with _ | ⟨hp, hxs⟩
      rcases h₂ with _ | ⟨hq, hys⟩
      simp only [List.map_cons, List.nodup_cons] at hnodup
      have hpq : p = q := by
        rcases List.mem_cons.mp
            (hperm.mem_iff.mp (List.mem_cons_self p xs)) with hpm | hpm
        · exact hpm
        · rcases List.mem_cons.mp
              (hperm.mem_iff.mpr (List.mem_cons_self q ys)) with hqm | hqm
          · exact hqm.symm
          · have h1 : pairLe q p := hq p hpm
            have h2 : pairLe p q := hp q hqm
            have hkey : p.1 = q.1 := strKeyLe_antisymm_key p q h2 h1
            exact absurd (hkey ▸ List.mem_map_of_mem Prod.fst hqm) hnodup.1
      subst hpq
      have hxy : xs.Perm ys := hperm.cons_inv
      rw [ih ys hxy hxs hys hnodup.2]

theorem sortPairs_eq_of_perm (l l' : List (String × String))
    (hperm : l.Perm l') (hnodup : (l.map Prod.fst).Nodup) :
    sortPairs l = sortPairs l' := by
  refine sorted_nodup_keys_perm_eq _ _ ?_ (pairwise_sortPairs l)
    (pairwise_sortPairs l') ?_
  · exact (perm_sortPairs l).trans (hperm.trans (perm_sortPairs l').symm)
  · exact ((perm_sortPairs l).map Prod.fst).nodup_iff.mpr hnodup

theorem pyJsonDumpsPairs_eq_map (l : List (String × PyVal)) :
    pyJsonDumpsPairs l = l.map (fun kv => (kv.1, pyJsonDumps kv.2)) := by
  induction l with
  | nil => rfl
  | cons p rest ih =>
    cases p with
    | mk k v => rw [pyJsonDumpsPairs, ih, List.map_cons]

/-! ## Claim C5 — job-id derivation -/

/-- C5 (amended): the job id is the lowercase-hex SHA-256 of
`json.dumps(params, sort_keys=True)` with Python's **default separators**
— a space follows each key colon and item comma, so the serialization of
`\x7b"x": 1\x7d` is not whitespace-free; the id is nevertheless independent
of the key order of the parameter mapping, and for params `\x7bx: 1\x7d`
it equals the sha256 of the string `\x7b"x": 1\x7d`. -/
theorem job_id_derivation (l l' : List (String × PyVal)) (hperm : l.Perm l')
    (hnodup : (l.map Prod.fst).Nodup) :
    generate_job_id l = generate_job_id l'
    ∧ pyJsonDumps (.obj [("x", PyVal.int 1)]) = "\x7b\"x\": 1\x7d"
    ∧ generate_job_id [("x", PyVal.int 1)] =
        "613fe5aa65343dbb1b9abe6abac6773f5c91bd60d3f2ffb7e2eae69e1db8b227" := by
  refine ⟨?_, rfl, ?_⟩
  · have hpairs : (pyJsonDumpsPairs l).Perm (pyJsonDumpsPairs l') := by
      rw [pyJsonDumpsPairs_eq_map, pyJsonDumpsPairs_eq_map]
      exact hperm.map _
    have hkeys : ((pyJsonDumpsPairs l).map Prod.fst).Nodup := by
      rw [pyJsonDumpsPairs_eq_map, List.map_map]
      simpa using hnodup
    rw [generate_job_id, generate_job_id, pyJsonDumps,
      sortPairs_eq_of_perm _ _ hpairs hkeys]
    rfl
  · set_option maxRecDepth 100000 in decide

/-- C5 witness: the spec's own identity-law example — the id of
`\x7ba: 1, b: 2\x7d` does not depend on which key comes first. -/
theorem job_id_derivation_witness :
    generate_job_id [("a", PyVal.int 1), ("b", PyVal.int 2)] =
      generate_job_id [("b", PyVal.int 2), ("a", PyVal.int 1)] :=
  (job_id_derivation [("a", PyVal.int 1), ("b", PyVal.int 2)]
      [("b", PyVal.int 2), ("a", PyVal.int 1)]
      (List.Perm.swap ("b", PyVal.int 2) ("a", PyVal.int 1) [])
      (by decide)).1

set_option maxRecDepth 100000 in
/-- C5 counterexample: the claim's canonical serialization (sorted keys,
no insignificant whitespace) of `\x7bx: 1\x7d` is the string
`\x7b"x":1\x7d`, and the id the code derives is **not** the sha256 of that
string — the code hashes `\x7b"x": 1\x7d`, which has a space after the
colon. -/
theorem job_id_whitespace_counterexample :
    specCanonical (.obj [("x", PyVal.int 1)]) = "\x7b\"x\":1\x7d" ∧
    generate_job_id [("x", PyVal.int 1)] ≠
      sha256Hex (specCanonical (.obj [("x", PyVal.int 1)])) := by
  constructor
  · rfl
  · decide

/-! ### The broadcast loop and its dead-connection cleanup -/

theorem foldl_broadcastStep (msg : Msg) (f : ConnId → Bool) (s : WSState) :
    ∀ (subs : List (String × Option String))
      (acc : List (ConnId × Msg) × List String),
    subs.foldl (broadcastStep msg f s) acc =
      (acc.1 ++ subs.filterMap (sendFor msg f s),
       acc.2 ++ subs.filterMap (deadFor f s)) := by
  intro subs
  induction subs with
  | nil => intro acc; simp
  | cons p rest ih =>
    intro acc
    rw [List.foldl_cons, ih]
    cases hl : s.client_connections.lookup p.1 with
    | none =>
      simp [broadcastStep, sendFor, deadFor, hl, List.filterMap_cons]
    | some w =>
      by_cases hf : f w = true
      · simp [broadcastStep, sendFor, deadFor, hl, hf, List.filterMap_cons]
      · simp [broadcastStep, sendFor, deadFor, hl, hf, List.filterMap_cons]

theorem evictDead_frame (s : WSState) (c : String) :
    (evictDead s c).job_subscriptions = s.job_subscriptions ∧
    (evictDead s c).client_subscriptions = s.client_subscriptions := by
  rw [evictDead]
  cases s.client_connections.lookup c with
  | none => exact ⟨rfl, rfl⟩
  | some w => exact ⟨rfl, rfl⟩

theorem evictFold_frame : ∀ (dead : List String) (s : WSState),
    ((dead.foldl evictDead s).job_subscriptions = s.job_subscriptions) ∧
    ((dead.foldl evictDead s).client_subscriptions = s.client_subscriptions) := by
  intro dead
  induction dead with
  | nil => intro s; exact ⟨rfl, rfl⟩
  | cons c rest ih =>
    intro s
    rw [List.foldl_cons]
    exact ⟨(ih _).1.trans (evictDead_frame s c).1,
           (ih _).2.trans (evictDead_frame s c).2⟩

theorem evictDead_absent (s : WSState) (c : String) (cid : String) (w : ConnId) :
    (s.client_connections.lookup cid = none →
      (evictDead s c).client_connections.lookup cid = none) ∧
    (s.active_connections.contains w = false →
      (evictDead s c).active_connections.contains w = false) ∧
    (s.connection_client_ids.lookup w = none →
      (evictDead s c).connection_client_ids.lookup w = none) := by
  rw [evictDead]
  cases s.client_connections.lookup c with
  | none => exact ⟨fun h => h, fun h => h, fun h => h⟩
  | some w' =>
    exact ⟨fun h => lookup_alistErase_none _ _ _ h,
           fun h => contains_setRemove_mono _ _ _ h,
           fun h => lookup_alistErase_none _ _ _ h⟩

theorem evictFold_absent : ∀ (dead : List String) (s : WSState)
    (cid : String) (w : ConnId),
    (s.client_connections.lookup cid = none →
      ((dead.foldl evictDead s).client_connections.lookup cid = none)) ∧
    (s.active_connections.contains w = false →
      ((dead.foldl evictDead s).active_connections.contains w = false)) ∧
    (s.connection_client_ids.lookup w = none →
      ((dead.foldl evictDead s).connection_client_ids.lookup w = none)) := by
  intro dead
  induction dead with
  | nil => intro s cid w; exact ⟨fun h => h, fun h => h, fun h => h⟩
  | cons c rest ih =>
    intro s cid w
    rw [List.foldl_cons]
    exact ⟨fun h => (ih _ cid w).1 ((evictDead_absent s c cid w).1 h),
           fun h => (ih _ cid w).2.1 ((evictDead_absent s c cid w).2.1 h),
           fun h => (ih _ cid w).2.2 ((evictDead_absent s c cid w).2.2 h)⟩

theorem evictDead_nodup (s : WSState) (c : String) :
    ((s.client_connections.map Prod.fst).Nodup →
      ((evictDead s c).client_connections.map Prod.fst).Nodup) ∧
    ((s.connection_client_ids.map Prod.fst).Nodup →
      ((evictDead s c).connection_client_ids.map Prod.fst).Nodup) := by
  rw [evictDead]
  cases s.client_connections.lookup c with
  | none => exact ⟨fun h => h, fun h => h⟩
  | some w =>
    exact ⟨fun h => nodup_keys_alistErase _ _ h,
           fun h => nodup_keys_alistErase _ _ h⟩

theorem evictDead_lookup_ne (s : WSState) (c cid : String) (hne : cid ≠ c) :
    (evictDead s c).client_connections.lookup cid =
      s.client_connections.lookup cid := by
  rw [evictDead]
  cases s.client_connections.lookup c with
  | none => rfl
  | some w => exact lookup_alistErase_ne _ hne

theorem evictFold_removes : ∀ (dead : List String) (s : WSState)
    (cid : String) (w : ConnId),
    cid ∈ dead →
    s.client_connections.lookup cid = some w →
    (s.client_connections.map Prod.fst).Nodup →
    (s.connection_client_ids.map Prod.fst).Nodup →
    ((dead.foldl evictDead s).client_connections.lookup cid = none ∧
     (dead.foldl evictDead s).active_connections.contains w = false ∧
     (dead.foldl evictDead s).connection_client_ids.lookup w = none) := by
  intro dead
  induction dead with
  | nil => intro s cid w hmem; cases hmem
  | cons c rest ih =>
    intro s cid w hmem hcc hn₁ hn₂
    rw [List.foldl_cons]
    by_cases hc : cid = c
    · subst hc
      have hstep : (evictDead s cid).client_connections.lookup cid = none ∧
          (evictDead s cid).active_connections.contains w = false ∧
          (evictDead s cid).connection_client_ids.lookup w = none := by
        rw [evictDead, hcc]
        exact ⟨lookup_alistErase_self _ _ hn₁,
               setRemove_contains_self _ _,
               lookup_alistErase_self _ _ hn₂⟩
      exact ⟨(evictFold_absent rest _ cid w).1 hstep.1,
             (evictFold_absent rest _ cid w).2.1 hstep.2.1,
             (evictFold_absent rest _ cid w).2.2 hstep.2.2⟩
    · have hmem' : cid ∈ rest := by
        rcases List.mem_cons.mp hmem with h | h
        · exact absurd h hc
        · exact h
      have hcc' : (evictDead s c).client_connections.lookup cid = some w :=
        (evictDead_lookup_ne s c cid hc).trans hcc
      exact ih _ cid w hmem' hcc' ((evictDead_nodup s c).1 hn₁)
        ((evictDead_nodup s c).2 hn₂)

/-! ## Claim C6 — broadcast semantics -/

/-- C6: for every subscription of a job id, broadcasting skips subscribers
whose client has no connection while keeping their entry; a subscriber
whose stored `request_id` is truthy receives its own copy of the message
with `request_id` injected, others receive the shared message untouched;
and on a send failure the connection is evicted from the active set and
both identity maps, while the subscription entry is preserved. -/
theorem broadcast_semantics (job_id : String) (msg : Msg) (f : ConnId → Bool)
    (s : WSState) (subs : List (String × Option String))
    (cid : String) (rid : Option String)
    (hsubs : s.job_subscriptions.lookup job_id = some subs)
    (hmem : (cid, rid) ∈ subs) :
    ((broadcast_to_job job_id msg f s).1.job_subscriptions =
        s.job_subscriptions
      ∧ (broadcast_to_job job_id msg f s).1.client_subscriptions =
        s.client_subscriptions)
    ∧ (∀ w m, (w, m) ∈ (broadcast_to_job job_id msg f s).2 →
        ∃ q ∈ subs, s.client_connections.lookup q.1 = some w)
    ∧ (s.client_connections.lookup cid = none →
        (broadcast_to_job job_id msg f s).1.job_subscriptions.lookup job_id =
          some subs)
    ∧ (∀ w, s.client_connections.lookup cid = some w → f w = false →
        (w, if truthyStr rid then alistSet "request_id" (rid.getD "") msg
            else msg) ∈ (broadcast_to_job job_id msg f s).2)
    ∧ (∀ w, s.client_connections.lookup cid = some w → f w = true →
        (s.client_connections.map Prod.fst).Nodup →
        (s.connection_client_ids.map Prod.fst).Nodup →
        (broadcast_to_job job_id msg f s).1.client_connections.lookup cid =
          none
        ∧ (broadcast_to_job job_id msg f s).1.active_connections.contains w =
          false
        ∧ (broadcast_to_job job_id msg f s).1.connection_client_ids.lookup w =
          none
        ∧ (broadcast_to_job job_id msg f s).1.job_subscriptions.lookup
            job_id = some subs) := by
  have hb : broadcast_to_job job_id msg f s =
      ((subs.filterMap (deadFor f s)).foldl evictDead s,
       subs.filterMap (sendFor msg f s)) := by
    rw [broadcast_to_job, hsubs]
    simp only []
    rw [foldl_broadcastStep]
    simp
  refine ⟨?_, ?_, ?_, ?_, ?_⟩
  · rw [hb]
    exact evictFold_frame _ s
  · intro w m hwm
    rw [hb] at hwm
    rcases List.mem_filterMap.mp hwm with ⟨q, hq, hqe⟩
    refine ⟨q, hq, ?_⟩
    rw [sendFor] at hqe
    cases hl : s.client_connections.lookup q.1 with
    | none => rw [hl] at hqe; cases hqe
    | some w' =>
      rw [hl] at hqe
      simp only at hqe
      by_cases hf : f w' = true
      · rw [if_pos hf] at hqe; cases hqe
      · rw [if_neg hf] at hqe
        cases hqe
        rfl
  · intro _
    rw [hb]
    rw [(evictFold_frame _ s).1]
    exact hsubs
  · intro w hconn hf
    rw [hb]
    exact List.mem_filterMap.mpr ⟨(cid, rid), hmem, by simp [sendFor, hconn, hf]⟩
  · intro w hconn hf hn₁ hn₂
    have hdead : cid ∈ subs.filterMap (deadFor f s) :=
      List.mem_filterMap.mpr ⟨(cid, rid), hmem, by simp [deadFor, hconn, hf]⟩
    rw [hb]
    have hr := evictFold_removes (subs.filterMap (deadFor f s)) s cid w hdead
      hconn hn₁ hn₂
    exact ⟨hr.1, hr.2.1, hr.2.2,
      ((evictFold_frame _ s).1).symm ▸ hsubs⟩

/-- C6 witness: client `"c1"` is subscribed to `"J"` with token `"r1"` and
connected as connection 1; broadcasting delivers the message with
`request_id` injected and leaves the subscription table unchanged. -/
theorem broadcast_semantics_witness :
    (1, alistSet "request_id" "r1" exMsg) ∈
      (broadcast_to_job "J" exMsg noFails exWS).2 ∧
    (broadcast_to_job "J" exMsg noFails exWS).1.job_subscriptions =
      exWS.job_subscriptions :=
  ⟨(broadcast_semantics "J" exMsg noFails exWS [("c1", some "r1")] "c1"
      (some "r1") rfl (List.mem_singleton.mpr rfl)).2.2.2.1 1 rfl rfl,
   (broadcast_semantics "J" exMsg noFails exWS [("c1", some "r1")] "c1"
      (some "r1") rfl (List.mem_singleton.mpr rfl)).1.1⟩

/-! ## Claim C7 — subscriptions survive disconnect and supplant -/

/-- C7: `disconnect` removes the connection from the active set and from
both identity maps but leaves both subscription indexes untouched; a
`connect` that supplants a prior connection of the same client id evicts
only that prior connection (active set and identity maps), installs the
new binding, and changes no existing subscription entry. -/
theorem connection_lifecycle_frame (s : WSState) (ws : ConnId) (cid : String) :
    ((disconnect ws s).job_subscriptions = s.job_subscriptions
      ∧ (disconnect ws s).client_subscriptions = s.client_subscriptions)
    ∧ (s.connection_client_ids.lookup ws = some cid → cid ≠ "" →
        (disconnect ws s).active_connections.contains ws = false
        ∧ ((s.connection_client_ids.map Prod.fst).Nodup →
            (disconnect ws s).connection_client_ids.lookup ws = none)
        ∧ (s.client_connections.lookup cid = some ws →
            (s.client_connections.map Prod.fst).Nodup →
            (disconnect ws s).client_connections.lookup cid = none))
    ∧ (∀ old, cid ≠ "" → s.client_connections.lookup cid = some old →
        old ∈ s.active_connections →
        (connect ws (some cid) s).job_subscriptions = s.job_subscriptions
        ∧ (∀ k v, s.client_subscriptions.lookup k = some v →
            (connect ws (some cid) s).client_subscriptions.lookup k = some v)
        ∧ (connect ws (some cid) s).client_connections.lookup cid = some ws
        ∧ (connect ws (some cid) s).active_connections.contains old = false
        ∧ (old ≠ ws → (s.connection_client_ids.map Prod.fst).Nodup →
            (connect ws (some cid) s).connection_client_ids.lookup old =
              none)) := by
  refine ⟨?_, ?_, ?_⟩
  · rw [disconnect]
    cases s.connection_client_ids.lookup ws with
    | none => exact ⟨rfl, rfl⟩
    | some c =>
      simp only []
      by_cases hc : c = ""
      · rw [if_pos hc]; exact ⟨rfl, rfl⟩
      · rw [if_neg hc]; exact ⟨rfl, rfl⟩
  · intro hmap hcid
    rw [disconnect, hmap]
    simp only []
    rw [if_neg hcid]
    refine ⟨setRemove_contains_self _ _, ?_, ?_⟩
    · intro hn
      exact lookup_alistErase_self _ _ hn
    · intro hcc hn
      rw [if_pos hcc]
      exact lookup_alistErase_self _ _ hn
  · intro old hcid hcc hold
    have htr : truthyStr (some cid) = true := by simp [truthyStr, hcid]
    have hcontains : (setAdd ws s.active_connections).contains old = true :=
      contains_setAdd_of_mem _ _ _ hold
    rw [connect, if_pos htr]
    simp only [Option.getD_some, hcc, hcontains, if_true]
    refine ⟨trivial, ?_, lookup_alistSet_self _ _ _, setRemove_contains_self _ _, ?_⟩
    · intro k v hk
      by_cases hs : (s.client_subscriptions.lookup cid).isSome
      · rw [if_pos hs]
        exact hk
      · rw [if_neg hs]
        exact lookup_append_some _ _ hk
    · intro hne hn
      rw [lookup_alistSet_ne _ _ hne]
      exact lookup_alistErase_self _ _ hn

/-- C7 witness: supplanting client `"c1"`'s connection 1 with connection 2
keeps the `"J"` subscription, and disconnecting removes the binding while
keeping the subscription indexes. -/
theorem connection_lifecycle_frame_witness :
    (connect 2 (some "c1") exWS).job_subscriptions = exWS.job_subscriptions ∧
    (connect 2 (some "c1") exWS).client_connections.lookup "c1" = some 2 ∧
    (connect 2 (some "c1") exWS).active_connections.contains 1 = false ∧
    (disconnect 1 exWS).job_subscriptions = exWS.job_subscriptions ∧
    (disconnect 1 exWS).client_connections.lookup "c1" = none :=
  ⟨((connection_lifecycle_frame exWS 2 "c1").2.2 1 (by decide) rfl
      (List.mem_singleton.mpr rfl)).1,
   ((connection_lifecycle_frame exWS 2 "c1").2.2 1 (by decide) rfl
      (List.mem_singleton.mpr rfl)).2.2.1,
   ((connection_lifecycle_frame exWS 2 "c1").2.2 1 (by decide) rfl
      (List.mem_singleton.mpr rfl)).2.2.2.1,
   (connection_lifecycle_frame exWS 1 "c1").1.1,
   ((connection_lifecycle_frame exWS 1 "c1").2.1 rfl (by decide)).2.2 rfl
      (by decide)⟩

/-! ## Claim C10 — catch-up re-subscription drops correlation tokens -/

theorem subscribe_overwrites (s : WSState) (ws : ConnId) (cid : String)
    (hbind : s.connection_client_ids.lookup ws = some cid) (hcid : cid ≠ "")
    (job_id : String) (r : Option String) :
    (subscribe job_id ws r s).job_subscriptions.lookup job_id =
      some (alistSet cid r (alistGetD job_id s.job_subscriptions []))
    ∧ (subscribe job_id ws r s).connection_client_ids.lookup ws = some cid := by
  rw [subscribe, hbind]
  simp only [if_neg hcid]
  constructor
  · cases s.client_subscriptions.lookup cid with
    | none => exact lookup_alistSet_self _ _ _
    | some js => exact lookup_alistSet_self _ _ _
  · cases s.client_subscriptions.lookup cid with
    | none => exact hbind
    | some js => exact hbind

theorem subscribe_keeps_none (s : WSState) (ws : ConnId) (cid : String)
    (hbind : s.connection_client_ids.lookup ws = some cid) (hcid : cid ≠ "")
    (job_id jid : String) (r : Option String)
    (hnone : ((s.job_subscriptions.lookup jid).bind
      (fun l => l.lookup cid)) = some none) (hr : jid = job_id → r = none) :
    ((subscribe job_id ws r s).job_subscriptions.lookup jid).bind
      (fun l => l.lookup cid) = some none := by
  have h := subscribe_overwrites s ws cid hbind hcid job_id r
  by_cases hj : jid = job_id
  · subst hj
    rw [h.1, hr rfl]
    show (alistSet cid (none : Option String)
      (alistGetD jid s.job_subscriptions [])).lookup cid = some none
    exact lookup_alistSet_self _ _ _
  · have : (subscribe job_id ws r s).job_subscriptions.lookup jid =
        s.job_subscriptions.lookup jid := by
      rw [subscribe, hbind]
      simp only [if_neg hcid]
      cases s.client_subscriptions.lookup cid with
      | none => exact lookup_alistSet_ne _ _ hj
      | some js => exact lookup_alistSet_ne _ _ hj
    rw [this]
    exact hnone

theorem resub_fold_invariant (ws : ConnId) (cid : String) :
    ∀ (jobs : List JobEntry) (s : WSState),
    s.connection_client_ids.lookup ws = some cid → cid ≠ "" →
    let after := jobs.foldl (fun s' job =>
      if job.status = JobStatus.pending ∨ job.status = JobStatus.processing
      then subscribe job.id ws none s' else s') s
    (after.connection_client_ids.lookup ws = some cid)
    ∧ (∀ jid, ((s.job_subscriptions.lookup jid).bind
          (fun l => l.lookup cid)) = some none →
        ((after.job_subscriptions.lookup jid).bind
          (fun l => l.lookup cid)) = some none)
    ∧ (∀ e ∈ jobs,
        (e.status = JobStatus.pending ∨ e.status = JobStatus.processing) →
        ((after.job_subscriptions.lookup e.id).bind
          (fun l => l.lookup cid)) = some none) := by
  intro jobs
  induction jobs with
  | nil =>
    intro s hbind hcid
    exact ⟨hbind, fun _ h => h, fun e he => absurd he (List.not_mem_nil e)⟩
  | cons j rest ih =>
    intro s hbind hcid
    rw [List.foldl_cons]
    by_cases hst : j.status = JobStatus.pending ∨ j.status = JobStatus.processing
    · rw [if_pos hst]
      have hsub := subscribe_overwrites s ws cid hbind hcid j.id none
      have hrec := ih (subscribe j.id ws none s) hsub.2 hcid
      refine ⟨hrec.1, ?_, ?_⟩
      · intro jid hjid
        exact hrec.2.1 jid
          (subscribe_keeps_none s ws cid hbind hcid j.id jid none hjid
            (fun _ => rfl))
      · intro e he hest
        rcases List.mem_cons.mp he with he | he
        · subst he
          refine hrec.2.1 e.id ?_
          rw [hsub.1]
          show (alistSet cid (none : Option String)
            (alistGetD e.id s.job_subscriptions [])).lookup cid = some none
          exact lookup_alistSet_self _ _ _
        · exact hrec.2.2 e he hest
    · rw [if_neg hst]
      have hrec := ih s hbind hcid
      refine ⟨hrec.1, hrec.2.1, ?_⟩
      intro e he hest
      rcases List.mem_cons.mp he with he | he
      · subst he
        exact absurd hest hst
      · exact hrec.2.2 e he hest

/-- C10: `subscribe` unconditionally overwrites the stored `request_id`
for a `(job_id, client_id)` pair; the `get_client_jobs` handler
re-subscribes the connection to each non-terminal job of the client with
no request id, so afterwards the stored token for those jobs is `None`;
and a broadcast to a subscription whose stored token is `None` delivers
the shared message with no `request_id` field injected. -/
theorem resubscribe_drops_request_id (s : WSState) (reg : RegistryState)
    (ws : ConnId) (cid : String)
    (hbind : s.connection_client_ids.lookup ws = some cid)
    (hcid : cid ≠ "") :
    (∀ job_id r, (subscribe job_id ws r s).job_subscriptions.lookup job_id =
        some (alistSet cid r (alistGetD job_id s.job_subscriptions [])))
    ∧ (∀ job_id r, ((subscribe job_id ws r s).job_subscriptions.lookup
        job_id).bind (fun l => l.lookup cid) = some r)
    ∧ (∀ c e, e ∈ get_client_jobs c reg →
        (e.status = JobStatus.pending ∨ e.status = JobStatus.processing) →
        ((resubscribe_client_jobs reg c ws s).job_subscriptions.lookup
          e.id).bind (fun l => l.lookup cid) = some none)
    ∧ (∀ (t : WSState) (jid : String)
        (subs' : List (String × Option String)) (w : ConnId) (msg : Msg)
        (f : ConnId → Bool),
        t.job_subscriptions.lookup jid = some subs' →
        subs'.lookup cid = some none →
        t.client_connections.lookup cid = some w → f w = false →
        (w, msg) ∈ (broadcast_to_job jid msg f t).2) := by
  refine ⟨?_, ?_, ?_, ?_⟩
  · intro job_id r
    exact (subscribe_overwrites s ws cid hbind hcid job_id r).1
  · intro job_id r
    rw [(subscribe_overwrites s ws cid hbind hcid job_id r).1]
    show (alistSet cid r
      (alistGetD job_id s.job_subscriptions [])).lookup cid = some r
    exact lookup_alistSet_self _ _ _
  · intro c e he hest
    exact (resub_fold_invariant ws cid (get_client_jobs c reg) s hbind
      hcid).2.2 e he hest
  · intro t jid subs' w msg f hsubs hstored hconn hf
    have hmem : (cid, (none : Option String)) ∈ subs' :=
      mem_of_lookup_some hstored
    have hb : (w, if truthyStr (none : Option String) then
        alistSet "request_id" ((none : Option String).getD "") msg else msg) ∈
        (broadcast_to_job jid msg f t).2 := by
      rw [broadcast_to_job, hsubs]
      simp only []
      rw [foldl_broadcastStep]
      simp only [List.nil_append]
      exact List.mem_filterMap.mpr ⟨(cid, none), hmem,
        by simp [sendFor, hconn, hf]⟩
    simpa [truthyStr] using hb

/-- C10 witness: after the catch-up re-subscription for client `"c1"`
(whose original subscription to `"J"` carried token `"r1"`), the stored
token is `None` and a broadcast delivers the bare message. -/
theorem resubscribe_drops_request_id_witness :
    (((resubscribe_client_jobs exStatePending "c1" 1 exWS).job_subscriptions).lookup
        "J").bind (fun l => l.lookup "c1") = some none :=
  (resubscribe_drops_request_id exWS exStatePending 1 "c1" rfl
      (by decide)).2.2.1 "c1" exEntryPending (List.mem_singleton.mpr rfl)
      (Or.inl rfl)

/-! ## Claim C1 — deduplication in `create_job` -/

/-- C1: if the registry already holds an entry for the id derived from the
parameters and that entry's status is `pending` or `processing`, then
`create_job` returns that existing entry, changes nothing in the registry
state, and schedules no execution. -/
theorem create_job_dedup (genId : List (String × PyVal) → String)
    (env : CacheEnv) (clock : Nat → Nat) (tick : Nat) (task_type : String)
    (params : List (String × PyVal)) (client_id : Option String)
    (s : RegistryState) (e : JobEntry)
    (hlookup : s.jobs.lookup (genId params) = some e)
    (hstatus : e.status = JobStatus.pending ∨ e.status = JobStatus.processing) :
    create_job true genId env clock tick task_type params client_id s =
      { state := s, ret := some e, scheduled := false, broadcasts := [],
        nextTick := tick } := by
  simp only [create_job, Bool.not_true, Bool.false_eq_true, if_false, hlookup]
  rw [if_pos hstatus]

/-- C1 witness: the deduplication theorem applied to a registry holding
the pending job `"J"`. -/
theorem create_job_dedup_witness :
    create_job true exGenId envNoCache exClock 0 "text_to_image" []
        (some "c1") exStatePending =
      { state := exStatePending, ret := some exEntryPending,
        scheduled := false, broadcasts := [], nextTick := 0 } :=
  create_job_dedup exGenId envNoCache exClock 0 "text_to_image" []
    (some "c1") exStatePending exEntryPending rfl (Or.inl rfl)

/-! ## Claim C3 — `cancel_job` return value and side effects -/

/-- C3 (amended): `cancel_job` returns true iff the job exists with status
`pending` or `processing`; when the status was `pending` it immediately
rewrites it to `cancelled`; and the call emits **no** broadcast at all —
the `cancelled` broadcast is produced only later, by the executor. -/
theorem cancel_job_spec (j : String) (s : RegistryState) :
    ((cancel_job j s).1 = true ↔
      ∃ e, s.jobs.lookup j = some e ∧
        (e.status = JobStatus.pending ∨ e.status = JobStatus.processing))
    ∧ (∀ e, s.jobs.lookup j = some e → e.status = JobStatus.pending →
        (cancel_job j s).2.1.jobs.lookup j =
          some { e with status := JobStatus.cancelled })
    ∧ (cancel_job j s).2.2 = [] := by
  refine ⟨?_, ?_, ?_⟩
  · constructor
    · intro h
      cases hl : s.jobs.lookup j with
      | none => simp [cancel_job, hl] at h
      | some e =>
        by_cases hs : e.status = JobStatus.pending ∨ e.status = JobStatus.processing
        · exact ⟨e, rfl, hs⟩
        · simp [cancel_job, hl, hs] at h
    · rintro ⟨e, hl, hs⟩
      simp [cancel_job, hl, hs]
  · intro e hl hs
    simp [cancel_job, hl, hs, lookup_alistSet_self]
  · cases hl : s.jobs.lookup j with
    | none => simp [cancel_job, hl]
    | some e =>
      by_cases hs : e.status = JobStatus.pending ∨ e.status = JobStatus.processing
      · simp [cancel_job, hl, hs]
      · simp [cancel_job, hl, hs]

/-- C3 witness: cancelling the pending job `"J"` returns true, rewrites
its status to `cancelled`, and emits nothing. -/
theorem cancel_job_spec_witness :
    (cancel_job "J" exStatePending).1 = true ∧
    (cancel_job "J" exStatePending).2.1.jobs.lookup "J" =
      some { exEntryPending with status := JobStatus.cancelled } ∧
    (cancel_job "J" exStatePending).2.2 = [] :=
  ⟨((cancel_job_spec "J" exStatePending).1).mpr
      ⟨exEntryPending, rfl, Or.inl rfl⟩,
   (cancel_job_spec "J" exStatePending).2.1 exEntryPending rfl rfl,
   (cancel_job_spec "J" exStatePending).2.2⟩

/-- C3 counterexample: the claim also asserts that cancelling a pending
job "emits a cancelled status broadcast"; on the concrete pending job
`"J"` the call rewrites the status but its broadcast list is empty. -/
theorem cancel_job_no_broadcast_counterexample :
    ((cancel_job "J" exStatePending).2.1.jobs.lookup "J").map JobEntry.status =
      some JobStatus.cancelled ∧
    (cancel_job "J" exStatePending).2.2.length = 0 := by
  constructor
  · rfl
  · rfl

/-! ## Claim C2 — status progression and terminal absorption -/

/-- C2 (amended): `cancel_job` and `_update_job_status` never overwrite a
terminal status, and a job whose id is in the cancellation set finishes as
`cancelled`; but the executor's pickup (`execute_job_start`) writes
`processing` over **any** current status — including `cancelled` — and
broadcasts `processing`, so a job cancelled while pending later shows
`processing` before its final `cancelled`. -/
theorem registry_status_transitions (clock : Nat → Nat) (s : RegistryState)
    (j : String) (e : JobEntry) (h : s.jobs.lookup j = some e) :
    (∀ j', isTerminalStatus e.status = true →
      (cancel_job j' s).2.1.jobs.lookup j = some e)
    ∧ (∀ j' st ex, isTerminalStatus e.status = true →
      (update_job_status j' st ex s).1.jobs.lookup j = some e)
    ∧ ((execute_job_start j s).1.jobs.lookup j =
        some { e with status := JobStatus.processing }
      ∧ (execute_job_start j s).2 =
        [{ job_id := j, status := JobStatus.processing, result := none,
           error := none }])
    ∧ (∀ o t, s.cancelled_jobs.contains j = true →
      ((execute_job_finish j o clock t s).1.jobs.lookup j).map JobEntry.status =
        some JobStatus.cancelled) := by
  have hterm : isTerminalStatus e.status = true →
      ¬ (e.status = JobStatus.pending ∨ e.status = JobStatus.processing) := by
    intro ht hor
    rcases hor with hp | hp <;> rw [hp] at ht <;> revert ht <;> decide
  have hpp : JobStatus.processing ≠ JobStatus.pending := by decide
  refine ⟨?_, ?_, ?_, ?_⟩
  · intro j' ht
    by_cases hj : j' = j
    · subst hj
      simp [cancel_job, h, hterm ht]
    · cases hl : s.jobs.lookup j' with
      | none => simp [cancel_job, hl, h]
      | some e₂ =>
        by_cases hs₂ : e₂.status = JobStatus.pending ∨ e₂.status = JobStatus.processing
        · rcases hs₂ with hp | hp
          · simp [cancel_job, hl, hp, lookup_alistSet_ne _ _ (Ne.symm hj), h]
          · simp [cancel_job, hl, hp, hpp, h]
        · simp [cancel_job, hl, hs₂, h]
  · intro j' st ex ht
    by_cases hj : j' = j
    · subst hj
      simp [update_job_status, h, ht]
    · cases hl : s.jobs.lookup j' with
      | none => simp [update_job_status, hl, h]
      | some e₂ =>
        by_cases ht₂ : isTerminalStatus e₂.status = true
        · simp [update_job_status, hl, ht₂, h]
        · simp [update_job_status, hl, ht₂,
            lookup_alistSet_ne _ _ (Ne.symm hj), h]
  · constructor
    · simp [execute_job_start, h, lookup_alistSet_self]
    · rw [execute_job_start]
  · intro o t hc
    have hc' : j ∈ s.cancelled_jobs := by simpa using hc
    cases o with
    | ok r =>
      simp [execute_job_finish, execute_job_error, hc', h, lookup_alistSet_self]
    | error m =>
      simp [execute_job_finish, execute_job_error, hc', h, lookup_alistSet_self]

/-- C2 witness: on the registry where `"J"` was cancelled while pending,
a failing finish still reports `cancelled`, and cancelling another id
leaves the terminal entry intact. -/
theorem registry_status_transitions_witness :
    ((execute_job_finish "J" (Except.error "boom") exClock 5
        exStateCancelled).1.jobs.lookup "J").map JobEntry.status =
      some JobStatus.cancelled ∧
    (cancel_job "K" exStateCancelled).2.1.jobs.lookup "J" =
      some exEntryCancelled :=
  ⟨(registry_status_transitions exClock exStateCancelled "J" exEntryCancelled
      rfl).2.2.2 (Except.error "boom") 5 rfl,
   (registry_status_transitions exClock exStateCancelled "J" exEntryCancelled
      rfl).1 "K" rfl⟩

/-- C2 counterexample: create job `"J"`, cancel it while pending — its
status is the terminal `cancelled` — then let the executor pick it up:
the status becomes `processing` again and a `processing` broadcast is
emitted, violating both terminal absorption and the cancelled-while-pending
guarantee. -/
theorem cancelled_then_processing_counterexample :
    (((cancel_job "J" (create_job true exGenId envNoCache exClock 0
        "text_to_image" [] (some "c1") exStateEmpty).state).2.1).jobs.lookup
        "J").map JobEntry.status = some JobStatus.cancelled
    ∧ ((execute_job_start "J" ((cancel_job "J" (create_job true exGenId
        envNoCache exClock 0 "text_to_image" [] (some "c1")
        exStateEmpty).state).2.1)).1.jobs.lookup "J").map JobEntry.status =
      some JobStatus.processing
    ∧ (execute_job_start "J" ((cancel_job "J" (create_job true exGenId
        envNoCache exClock 0 "text_to_image" [] (some "c1")
        exStateEmpty).state).2.1)).2 =
      [{ job_id := "J", status := JobStatus.processing, result := none,
         error := none }] :=
  ⟨rfl, rfl, rfl⟩

/-! ## Claim C4 — `completed_at` versus terminal statuses -/

/-- C4 (amended): every entry `create_job` writes satisfies
"`completed_at` set iff terminal"; the executor's pickup and
`_update_job_status` never touch `completed_at`; the executor's finish
always writes a terminal status together with `completed_at`; but
`cancel_job`'s pending-to-cancelled write leaves `completed_at` unset, so
a job cancelled while pending carries a terminal status with no
`completed_at`. -/
theorem completed_at_discipline (registered : Bool)
    (genId : List (String × PyVal) → String) (env : CacheEnv)
    (clock : Nat → Nat) (tick : Nat) (task_type : String)
    (params : List (String × PyVal)) (client_id : Option String)
    (s : RegistryState) :
    (∀ j' e', (create_job registered genId env clock tick task_type params
        client_id s).state.jobs.lookup j' = some e' →
      s.jobs.lookup j' = some e' ∨
        e'.completed_at.isSome = isTerminalStatus e'.status)
    ∧ (∀ j j' e', (execute_job_start j s).1.jobs.lookup j' = some e' →
      s.jobs.lookup j' = some e' ∨
        ∃ e₀, s.jobs.lookup j' = some e₀ ∧
          e' = { e₀ with status := JobStatus.processing })
    ∧ (∀ j o t j' e',
        (execute_job_finish j o clock t s).1.jobs.lookup j' = some e' →
      s.jobs.lookup j' = some e' ∨
        (isTerminalStatus e'.status = true ∧ e'.completed_at = some (clock t)))
    ∧ (∀ j st ex j' e',
        (update_job_status j st ex s).1.jobs.lookup j' = some e' →
      s.jobs.lookup j' = some e' ∨
        ∃ e₀, s.jobs.lookup j' = some e₀ ∧ e' = { e₀ with status := st })
    ∧ (∀ j e, s.jobs.lookup j = some e → e.status = JobStatus.pending →
      (cancel_job j s).2.1.jobs.lookup j =
        some { e with status := JobStatus.cancelled }) := by
  have hfresh : ∀ j' e',
      (create_job_fresh env clock tick task_type (genId params) params
        client_id s).state.jobs.lookup j' = some e' →
      s.jobs.lookup j' = some e' ∨
        e'.completed_at.isSome = isTerminalStatus e'.status := by
    intro j' e' h'
    by_cases hj : j' = genId params
    · subst hj
      right
      cases hch : cache_probe env with
      | some r =>
        simp only [create_job_fresh.eq_def, hch] at h'
        rw [lookup_alistSet_self] at h'
        cases h'
        rfl
      | none =>
        simp only [create_job_fresh.eq_def, hch] at h'
        rw [lookup_alistSet_self] at h'
        cases h'
        rfl
    · left
      cases hch : cache_probe env with
      | some r =>
        simp only [create_job_fresh.eq_def, hch] at h'
        rwa [lookup_alistSet_ne _ _ hj] at h'
      | none =>
        simp only [create_job_fresh.eq_def, hch] at h'
        rwa [lookup_alistSet_ne _ _ hj] at h'
  refine ⟨?_, ?_, ?_, ?_, ?_⟩
  · intro j' e' h'
    cases registered with
    | false => left; exact h'
    | true =>
      rcases hl : s.jobs.lookup (genId params) with _ | e₀
      · rw [create_job] at h'
        simp only [hl] at h'
        exact hfresh j' e' h'
      · rw [create_job] at h'
        simp only [hl] at h'
        by_cases h1 : e₀.status = JobStatus.pending ∨ e₀.status = JobStatus.processing
        · rw [if_pos h1] at h'
          left; exact h'
        · rw [if_neg h1] at h'
          by_cases h2 : e₀.status = JobStatus.completed
          · rw [if_pos h2] at h'
            left; exact h'
          · rw [if_neg h2] at h'
            exact hfresh j' e' h'
  · intro j j' e' h'
    rcases hl : s.jobs.lookup j with _ | e₀
    · rw [execute_job_start, hl] at h'
      left; exact h'
    · rw [execute_job_start, hl] at h'
      by_cases hj : j' = j
      · subst hj
        rw [lookup_alistSet_self] at h'
        cases h'
        exact Or.inr ⟨e₀, hl, rfl⟩
      · rw [lookup_alistSet_ne _ _ hj] at h'
        left; exact h'
  · intro j o t j' e' h'
    have herr : ∀ m,
        (execute_job_error j m clock t s).1.jobs.lookup j' = some e' →
        s.jobs.lookup j' = some e' ∨
          (isTerminalStatus e'.status = true ∧
            e'.completed_at = some (clock t)) := by
      intro m hm
      rcases hl : s.jobs.lookup j with _ | e₀
      · rw [execute_job_error, hl] at hm
        left; exact hm
      · rw [execute_job_error, hl] at hm
        by_cases hj : j' = j
        · subst hj
          rw [lookup_alistSet_self] at hm
          cases hm
          right
          refine ⟨?_, rfl⟩
          show isTerminalStatus (if s.cancelled_jobs.contains j' then
            JobStatus.cancelled else JobStatus.failed) = true
          by_cases hc : s.cancelled_jobs.contains j' = true
          · rw [if_pos hc]; rfl
          · rw [if_neg hc]; rfl
        · rw [lookup_alistSet_ne _ _ hj] at hm
          left; exact hm
    cases o with
    | error m =>
      rw [execute_job_finish] at h'
      simp only at h'
      exact herr m h'
    | ok r =>
      rw [execute_job_finish] at h'
      simp only at h'
      by_cases hc : s.cancelled_jobs.contains j = true
      · rw [if_pos hc] at h'
        exact herr _ h'
      · rw [if_neg hc] at h'
        rcases hl : s.jobs.lookup j with _ | e₀
        · rw [hl] at h'
          left; exact h'
        · rw [hl] at h'
          by_cases hj : j' = j
          · subst hj
            rw [lookup_alistSet_self] at h'
            cases h'
            exact Or.inr ⟨rfl, rfl⟩
          · rw [lookup_alistSet_ne _ _ hj] at h'
            left; exact h'
  · intro j st ex j' e' h'
    rcases hl : s.jobs.lookup j with _ | e₀
    · rw [update_job_status, hl] at h'
      left; exact h'
    · rw [update_job_status, hl] at h'
      simp only at h'
      by_cases ht : isTerminalStatus e₀.status = true
      · rw [if_pos ht] at h'
        left; exact h'
      · rw [if_neg ht] at h'
        by_cases hj : j' = j
        · subst hj
          rw [lookup_alistSet_self] at h'
          cases h'
          exact Or.inr ⟨e₀, hl, rfl⟩
        · rw [lookup_alistSet_ne _ _ hj] at h'
          left; exact h'
  · intro j e hl hs
    simp [cancel_job, hl, hs, lookup_alistSet_self]

/-- C4 witness: finishing job `"J"` successfully from the pending fixture
writes a terminal entry whose `completed_at` is the clock reading. -/
theorem completed_at_discipline_witness :
    exStatePending.jobs.lookup "J" = some exEntryDone ∨
    (isTerminalStatus exEntryDone.status = true ∧
      exEntryDone.completed_at = some (exClock 7)) :=
  (completed_at_discipline true exGenId envNoCache exClock 0 "text_to_image"
      [] none exStatePending).2.2.1 "J" (Except.ok (PyVal.obj [])) 7 "J"
      exEntryDone (by rfl)

/-- C4 counterexample: cancelling the pending job `"J"` leaves an entry
whose status is terminal while `completed_at` is still unset, refuting
"`completed_at` is set iff the status is terminal". -/
theorem completed_at_missing_counterexample :
    ((cancel_job "J" exStatePending).2.1.jobs.lookup "J").map
      (fun e => (isTerminalStatus e.status, e.completed_at.isSome)) =
      some (true, false) :=
  rfl

/-! ## Claim C8 — cache-hit creation -/

/-- C8 (amended): with no registry entry for the derived id, caching on
and a readable non-empty blob that deserializes, `create_job` inserts and
returns a `completed` entry carrying the deserialized result, schedules no
execution and broadcasts nothing; `created_at` and `completed_at` are two
successive clock readings (equal only when the clock does not advance
between them). -/
theorem create_job_cache_hit (genId : List (String × PyVal) → String)
    (env : CacheEnv) (clock : Nat → Nat) (tick : Nat) (task_type : String)
    (params : List (String × PyVal)) (client_id : Option String)
    (s : RegistryState) (d : List Nat) (r : PyVal)
    (hnone : s.jobs.lookup (genId params) = none)
    (huse : env.should_use_cache = true)
    (hex : env.cache_exists = true)
    (hread : env.read_cache = some d)
    (hne : d.isEmpty = false)
    (hdes : env.deserialize_result d = some r) :
    create_job true genId env clock tick task_type params client_id s =
      cache_hit_outcome clock tick task_type (genId params) params r s := by
  have hch : cache_probe env = some r := by
    rw [cache_probe, huse, hex, hread]
    simp [hne, hdes]
  simp [create_job, hnone, create_job_fresh.eq_def, hch, cache_hit_outcome]

/-- C8 witness: the cache-hit theorem applied to the empty registry and
the concrete blob oracle `envCacheHit`. -/
theorem create_job_cache_hit_witness :
    create_job true exGenId envCacheHit exClock 0 "text_to_image" []
        (some "c1") exStateEmpty =
      cache_hit_outcome exClock 0 "text_to_image" "J" [] (PyVal.obj [])
        exStateEmpty :=
  create_job_cache_hit exGenId envCacheHit exClock 0 "text_to_image" []
    (some "c1") exStateEmpty [123, 125] (PyVal.obj []) rfl rfl rfl rfl rfl rfl

/-- C8 counterexample: the claim asserts `created_at = completed_at`; the
code reads the clock twice, so under a clock that advances per read the
cache-hit entry has `created_at = 0` but `completed_at = 1`. -/
theorem cache_hit_timestamps_counterexample :
    ((create_job true exGenId envCacheHit exClock 0 "text_to_image" []
        (some "c1") exStateEmpty).ret.map
        (fun e => (e.created_at, e.completed_at))) = some (0, some 1) ∧
    ((create_job true exGenId envCacheHit exClock 0 "text_to_image" []
        (some "c1") exStateEmpty).ret.map
        (fun e => decide (some e.created_at = e.completed_at))) = some false :=
  ⟨rfl, rfl⟩

/-! ## Claim C9 — cache-hit entries carry no ownership -/

/-- C9: a cache-hit entry has no `client_id` and no `error`, and the
client-ownership index is left untouched even when a `client_id` argument
was supplied, so a later `get_client_jobs` for that client cannot list
the cache-satisfied job (given it was not already owned). -/
theorem cache_hit_no_ownership (genId : List (String × PyVal) → String)
    (env : CacheEnv) (clock : Nat → Nat) (tick : Nat) (task_type : String)
    (params : List (String × PyVal)) (client_id : Option String)
    (s : RegistryState) (d : List Nat) (r : PyVal)
    (hnone : s.jobs.lookup (genId params) = none)
    (huse : env.should_use_cache = true)
    (hex : env.cache_exists = true)
    (hread : env.read_cache = some d)
    (hne : d.isEmpty = false)
    (hdes : env.deserialize_result d = some r)
    (hwf : ∀ k ek, s.jobs.lookup k = some ek → ek.id = k) :
    ((create_job true genId env clock tick task_type params client_id
        s).ret.map JobEntry.client_id = some none)
    ∧ ((create_job true genId env clock tick task_type params client_id
        s).ret.map JobEntry.error = some none)
    ∧ (create_job true genId env clock tick task_type params client_id
        s).state.client_jobs = s.client_jobs
    ∧ (∀ c e, genId params ∉ alistGetD c s.client_jobs [] →
        e ∈ get_client_jobs c (create_job true genId env clock tick
          task_type params client_id s).state → e.id ≠ genId params) := by
  have hch : cache_probe env = some r := by
    rw [cache_probe, huse, hex, hread]
    simp [hne, hdes]
  have hcreate : create_job true genId env clock tick task_type params
      client_id s =
      cache_hit_outcome clock tick task_type (genId params) params r s := by
    simp [create_job, hnone, create_job_fresh.eq_def, hch, cache_hit_outcome]
  rw [hcreate]
  refine ⟨rfl, rfl, rfl, ?_⟩
  intro c e hnot hmem
  rw [get_client_jobs] at hmem
  obtain ⟨i, hi, hei⟩ := List.mem_filterMap.mp hmem
  have hi_ne : i ≠ genId params := fun hiq => hnot (hiq ▸ hi)
  rw [cache_hit_outcome] at hei
  simp only at hei
  rw [lookup_alistSet_ne _ _ hi_ne] at hei
  rw [hwf i e hei]
  exact hi_ne

/-- C9 witness: on the empty registry with a supplied client id, the
cache-hit call leaves the ownership index unchanged and returns an entry
without `client_id`. -/
theorem cache_hit_no_ownership_witness :
    ((create_job true exGenId envCacheHit exClock 0 "text_to_image" []
        (some "c1") exStateEmpty).ret.map JobEntry.client_id = some none) ∧
    (create_job true exGenId envCacheHit exClock 0 "text_to_image" []
        (some "c1") exStateEmpty).state.client_jobs =
      exStateEmpty.client_jobs :=
  ⟨(cache_hit_no_ownership exGenId envCacheHit exClock 0 "text_to_image" []
      (some "c1") exStateEmpty [123, 125] (PyVal.obj []) rfl rfl rfl rfl rfl
      rfl (fun _ _ h => Option.noConfusion h)).1,
   (cache_hit_no_ownership exGenId envCacheHit exClock 0 "text_to_image" []
      (some "c1") exStateEmpty [123, 125] (PyVal.obj []) rfl rfl rfl rfl rfl
      rfl (fun _ _ h => Option.noConfusion h)).2.2.1⟩

end ZImage
